import Mathlib

/-!
Shallow embedding of the survivor-pool optimizer (`backend/app`):
the Monte-Carlo / beam-search decision engine in `optimizer/monte_carlo.py`,
the win-probability model in `models/win_probability.py`, and the pick
endpoints in `api/routes.py`.

Modelling conventions:
* a `win_matrix` cell is `Option ℚ`; `none` models numpy's NaN;
* numpy's seeded PCG64 generator is modelled as an explicit stream of
  rationals together with a consumption counter (`RngState`); the only
  fact the code relies on is that `np.random.default_rng(seed)` is a pure
  function of the seed, which the model preserves;
* Python dicts keyed by team abbreviation are modelled as association
  lists in insertion order, which is how `max(d, key=d.__getitem__)`
  observes them.
-/

namespace Survivor

abbrev Row := List (Option ℚ)

abbrev WinMatrix := List Row

def N_SIMULATIONS : Nat := 50000

def SEED : Nat := 42

/-- Value of `row[t]` once known to be non-NaN (`win_matrix[wi, t]`). -/
def valAt (row : Row) (t : Nat) : ℚ :=
  (row.getD t none).getD 0

/-- `row[used] = -1; row[isnan(row)] = -1` — the masking step of the greedy
continuation in `simulate_single_entry`. -/
def maskRow (row : Row) (used : List Bool) : List ℚ :=
  List.zipWith (fun v u => if u then (-1 : ℚ) else v.getD (-1)) row used

/-- `np.argmax`: index of the first maximal element (0 on the empty list). -/
def argmaxIdx : List ℚ → Nat
  | [] => 0
  | [_] => 0
  | x :: y :: ys =>
    let j := argmaxIdx (y :: ys)
    if x < (y :: ys).getD j 0 then j + 1 else 0

/-- One greedy continuation step of `simulate_single_entry`
(`best_idx = argmax(masked row)`, dead when `row[best_idx] < 0`). -/
def greedyStep (row : Row) (used : List Bool) : Option Nat :=
  let masked := maskRow row used
  let b := argmaxIdx masked
  if masked.getD b (-1) < 0 then none else some b

/-- A seeded random generator: a stream of uniform draws plus how many
have been consumed. -/
structure RngState where
  stream : Nat → ℚ
  counter : Nat

/-- `rng.random(n) < p`: `n` Bernoulli(p) outcomes, advancing the stream. -/
def drawOutcomes (r : RngState) (n : Nat) (p : ℚ) : List Bool × RngState :=
  ((List.range n).map (fun i => decide (r.stream (r.counter + i) < p)),
   ⟨r.stream, r.counter + n⟩)

/-- Modelled stand-in for `np.random.default_rng(seed)`: a concrete pure
stream of rationals in `[0, 1)` derived from the seed (an LCG; the code
only relies on the generator being a deterministic function of the seed). -/
def seedStream (seed : Nat) (n : Nat) : ℚ :=
  (((fun x => (6364136223846793005 * x + 1442695040888963407) % (2 ^ 64))^[n + 1] seed : Nat) : ℚ) / (2 ^ 64)

def defaultRng (seed : Nat) : RngState :=
  ⟨seedStream seed, 0⟩

/-- The per-week loop (`for wi in range(1, n_weeks)`) of
`simulate_single_entry`: break when no sim is alive, greedy-pick the week's
team, kill everything on a dead week, otherwise draw outcomes and conjoin. -/
def simWeeks : WinMatrix → List Bool → List Bool → RngState → List Bool × RngState
  | [], _, alive, r => (alive, r)
  | row :: rest, used, alive, r =>
    if alive.all (fun a => !a) then (alive, r)
    else
      match greedyStep row used with
      | none => (alive.map (fun _ => false), r)
      | some b =>
        let p := valAt row b
        let o := drawOutcomes r alive.length p
        simWeeks rest (used.set b true) (List.zipWith (fun a c => a && c) alive o.1) o.2

/-- `available_mask = ~used_mask & ~np.isnan(win_matrix[0])` at index `t`. -/
def firstPickAvailable (row0 : Row) (used_mask : List Bool) (t : Nat) : Bool :=
  !(used_mask.getD t true) && (row0.getD t none).isSome

/-- `alive.mean()` for a boolean vector. -/
def boolMean (l : List Bool) : ℚ :=
  (l.count true : ℚ) / (l.length : ℚ)

/-- The loop body of `simulate_single_entry` for one candidate first pick
`i`: skip if unavailable, else draw week-0 outcomes, run the remaining
weeks, and record `(team_abbr, alive.mean())`. -/
def singleEntryStep (row0 : Row) (rest : WinMatrix) (used_mask : List Bool)
    (all_teams : List String) (n_sims : Nat)
    (acc : List (String × ℚ) × RngState) (i : Nat) :
    List (String × ℚ) × RngState :=
  if firstPickAvailable row0 used_mask i then
    let o := drawOutcomes acc.2 n_sims (valAt row0 i)
    let s := simWeeks rest (used_mask.set i true) o.1 o.2
    (acc.1 ++ [(all_teams.getD i "", boolMean s.1)], s.2)
  else acc

/-- `simulate_single_entry`, also returning the generator state it leaves
behind (the Python function mutates the caller's generator in place). -/
def simulate_single_entry_rng (win_matrix : WinMatrix) (used_mask : List Bool)
    (all_teams : List String) (n_sims : Nat) (r : RngState) :
    List (String × ℚ) × RngState :=
  match win_matrix with
  | [] => ([], r)
  | row0 :: rest =>
    (List.range row0.length).foldl
      (singleEntryStep row0 rest used_mask all_teams n_sims)
      (([] : List (String × ℚ)), r)

/-- `simulate_single_entry` (returns `{team_abbr: survival_probability}` as
an insertion-ordered association list). -/
def simulate_single_entry (win_matrix : WinMatrix) (used_mask : List Bool)
    (all_teams : List String) (n_sims : Nat) (r : RngState) :
    List (String × ℚ) :=
  (simulate_single_entry_rng win_matrix used_mask all_teams n_sims r).1

/-! ### `simulate_full_season_strategy` (beam search, width 5) -/

def BEAM_WIDTH : Nat := 5

/-- Beam state `(frozenset_used, list_picks, float_survival)`; the
frozenset is modelled by a membership list, the sentinel pick is `-1`. -/
abbrev BeamState := List ℕ × List ℤ × ℚ

/-- `available = [ti for ti in range(n_teams) if ti not in used_frozen and
not isnan(row[ti]) and row[ti] >= 0]`. -/
def availableTeams (row : Row) (used : List ℕ) : List ℕ :=
  (List.range row.length).filter
    (fun ti => !(used.contains ti) && (row.getD ti none).isSome && decide (0 ≤ valAt row ti))

/-- Expand every beam state by one week: dead ends get the sentinel pick
and survival `0.0`, otherwise every available team spawns a successor. -/
def beamExpand (row : Row) (states : List BeamState) : List BeamState :=
  states.flatMap (fun s =>
    let avail := availableTeams row s.1
    if avail.isEmpty then [(s.1, s.2.1 ++ [(-1 : ℤ)], (0 : ℚ))]
    else avail.map (fun ti => (ti :: s.1, s.2.1 ++ [(ti : ℤ)], s.2.2 * valAt row ti)))

/-- Stable insertion step: place `x` before the first `y` with `le x y`.
Instantiated with a reflexive-on-ties `le`, this reproduces the output of
Python's stable `list.sort` (the stable sort by a key is unique). -/
def insertSortedBy (le : α → α → Bool) (x : α) : List α → List α
  | [] => [x]
  | y :: ys => if le x y then x :: y :: ys else y :: insertSortedBy le x ys

/-- Stable insertion sort. -/
def insertionSortBy (le : α → α → Bool) : List α → List α
  | [] => []
  | x :: xs => insertSortedBy le x (insertionSortBy le xs)

/-- `next_states.sort(key=survival, reverse=True)` — a stable descending
sort on survival. -/
def beamSort (states : List BeamState) : List BeamState :=
  insertionSortBy (fun a b => decide (b.2.2 ≤ a.2.2)) states

/-- The week loop of the beam search: expand, break if nothing was
generated, else keep the top `BEAM_WIDTH` states by survival. -/
def beamLoop : WinMatrix → List BeamState → List BeamState
  | [], states => states
  | row :: rest, states =>
    let nxt := beamExpand row states
    if nxt.isEmpty then states
    else beamLoop rest ((beamSort nxt).take BEAM_WIDTH)

/-- `np.where(used_mask)[0]`. -/
def usedIndices (used_mask : List Bool) : List ℕ :=
  (List.range used_mask.length).filter (fun i => used_mask.getD i false)

/-- `simulate_full_season_strategy`: beam search over full pick sequences.
`n_sims` and `r` mirror the Python signature; the body never consumes them. -/
def simulate_full_season_strategy (win_matrix : WinMatrix) (used_mask : List Bool)
    (all_teams : List String) (n_sims : Nat) (r : RngState) :
    List String × ℚ :=
  match win_matrix with
  | [] => ([], 1)
  | _ :: _ =>
    match beamLoop win_matrix [(usedIndices used_mask, [], 1)] with
    | [] => ([], 0)
    | best :: _ =>
      (best.2.1.map (fun ti => if 0 ≤ ti then all_teams.getD ti.toNat "" else "NONE"),
       best.2.2)

/-! ### Relational records (`db/models.py`), restricted to the fields the
embedded functions read or write -/

structure TeamRec where
  id : Nat
  abbr : String
deriving DecidableEq, Repr

structure GameRec where
  id : Nat
  season : Nat
  week : Nat
  home_team_id : Nat
  away_team_id : Nat
  is_neutral : Bool
  home_win : Option Bool
  home_win_prob : Option ℚ
  away_win_prob : Option ℚ
deriving DecidableEq, Repr

structure EntryRec where
  id : Nat
  season : Nat
  is_alive : Bool
  eliminated_week : Option Nat
deriving DecidableEq, Repr

structure PickRec where
  id : Nat
  entry_id : Nat
  team_id : Nat
  season : Nat
  week : Nat
  win_prob : Option ℚ
  is_recommended : Bool
  outcome : Option Bool
deriving DecidableEq, Repr

structure Db where
  teams : List TeamRec
  games : List GameRec
  entries : List EntryRec
  picks : List PickRec
deriving DecidableEq, Repr

/-! ### `models/win_probability.py` -/

def HOME_FIELD_PTS : ℚ := 3

/-- A team-week stat bundle as the Python dicts carry it: `get_latest`
either returns `{}` (all fields absent) or a fully populated dict. -/
structure StatsDict where
  total_dvoa : Option ℚ := none
  offense_dvoa : Option ℚ := none
  defense_dvoa : Option ℚ := none
  off_epa_per_play : Option ℚ := none
  def_epa_per_play : Option ℚ := none
  srs : Option ℚ := none
  recent_form : Option ℚ := none
  rest_days : Option ℚ := none
deriving DecidableEq, Repr

/-- The feature vector assembled by `WinProbabilityModel.predict`
(home perspective, fixed order). -/
def featureVec (home away : StatsDict) (is_neutral : Bool) : List ℚ :=
  [ home.total_dvoa.getD 0 - away.total_dvoa.getD 0,
    home.offense_dvoa.getD 0 - away.offense_dvoa.getD 0,
    away.defense_dvoa.getD 0 - home.defense_dvoa.getD 0,
    home.off_epa_per_play.getD 0 - away.off_epa_per_play.getD 0,
    away.def_epa_per_play.getD 0 - home.def_epa_per_play.getD 0,
    home.srs.getD 0 - away.srs.getD 0,
    home.recent_form.getD 0 - away.recent_form.getD 0,
    home.rest_days.getD 7 - away.rest_days.getD 7,
    if is_neutral then 0 else 1,
    if is_neutral then 1 else 0 ]

/-- `WinProbabilityModel._srs_fallback`: SRS-based logistic fallback.
`expF` models `np.exp`, supplied as a parameter because the exponential is
an external numeric primitive. -/
def srs_fallback (expF : ℚ → ℚ) (home away : StatsDict) (is_neutral : Bool) : ℚ × ℚ :=
  let home_srs := home.srs.getD 0
  let away_srs := away.srs.getD 0
  let hfa : ℚ := if is_neutral then 0 else HOME_FIELD_PTS
  let spread := (home_srs - away_srs) + hfa
  let home_prob := 1 / (1 + expF (-(spread / (1386 / 100))))
  (home_prob, 1 - home_prob)

/-- `WinProbabilityModel.predict`. `model` is `some f` when a trained
classifier is loaded (`f` models `predict_proba(features)[0][1]`), `none`
when loading fails and the SRS fallback is used. -/
def predict (expF : ℚ → ℚ) (model : Option (List ℚ → ℚ))
    (home away : StatsDict) (is_neutral : Bool) : ℚ × ℚ :=
  match model with
  | none => srs_fallback expF home away is_neutral
  | some f =>
    let home_prob := f (featureVec home away is_neutral)
    (home_prob, 1 - home_prob)

/-- The per-game body of `update_game_win_probs`' loop. -/
def updateGameOne (expF : ℚ → ℚ) (model : Option (List ℚ → ℚ))
    (statsFor : Nat → Nat → StatsDict) (season : Nat) (g : GameRec) : GameRec :=
  if g.season = season ∧ g.home_win = none then
    let p := predict expF model (statsFor g.home_team_id g.week)
      (statsFor g.away_team_id g.week) g.is_neutral
    { g with home_win_prob := some p.1, away_win_prob := some p.2 }
  else g

/-- `update_game_win_probs`: recompute both win probabilities of every
unplayed game of the season. `statsFor team_id week` models the
`get_latest` DB read (latest stats row strictly before `week`). -/
def update_game_win_probs (expF : ℚ → ℚ) (model : Option (List ℚ → ℚ))
    (statsFor : Nat → Nat → StatsDict) (games : List GameRec) (season : Nat) :
    List GameRec :=
  games.map (updateGameOne expF model statsFor season)

/-! ### `api/routes.py`: pick submission and outcome reconciliation -/

structure PickSubmit where
  entry_id : Nat
  team_abbr : String
  season : Nat
  week : Nat
deriving DecidableEq, Repr

/-- `submit_pick`: `Except n` carries the HTTP status of an
`HTTPException`; success returns the new store plus the inserted pick.
`fresh_id` stands for the autoincrement key. -/
def submit_pick (db : Db) (body : PickSubmit) (fresh_id : Nat) :
    Except Nat (Db × PickRec) :=
  match db.entries.find? (fun e => e.id == body.entry_id) with
  | none => .error 404
  | some entry =>
    if !entry.is_alive then .error 400
    else
      match db.teams.find? (fun t => t.abbr == body.team_abbr) with
      | none => .error 404
      | some team =>
        if (db.picks.find? (fun p =>
              p.entry_id == body.entry_id && p.team_id == team.id)).isSome then
          .error 400
        else if (db.picks.find? (fun p =>
              p.entry_id == body.entry_id && p.season == body.season &&
              p.week == body.week)).isSome then
          .error 400
        else
          let game := db.games.find? (fun g =>
            g.season == body.season && g.week == body.week &&
            (g.home_team_id == team.id || g.away_team_id == team.id))
          let win_prob : Option ℚ :=
            match game with
            | some g => if g.home_team_id = team.id then g.home_win_prob else g.away_win_prob
            | none => none
          let pick : PickRec :=
            { id := fresh_id, entry_id := body.entry_id, team_id := team.id,
              season := body.season, week := body.week, win_prob := win_prob,
              is_recommended := false, outcome := none }
          .ok ({ db with picks := db.picks ++ [pick] }, pick)

/-- The completed-game lookup of `_update_pick_outcomes` for one pick. -/
def findCompletedGame (games : List GameRec) (season week team_id : Nat) :
    Option GameRec :=
  games.find? (fun g =>
    g.season == season && g.week == week && g.home_win.isSome &&
    (g.home_team_id == team_id || g.away_team_id == team_id))

/-- The body of the `for pick in picks` loop of `_update_pick_outcomes`,
acting on one pick: the possibly updated pick, the entry-table update to
apply, and whether the counter increments. -/
def updateOnePick (games : List GameRec) (season week : Nat)
    (entries : List EntryRec) (p : PickRec) :
    PickRec × List EntryRec × Nat :=
  if p.season = season ∧ p.week = week ∧ p.outcome = none then
    match findCompletedGame games season week p.team_id with
    | none => (p, entries, 0)
    | some g =>
      let won : Bool := if g.home_team_id = p.team_id then g.home_win.getD false
                        else !(g.home_win.getD false)
      let entries' :=
        if won then entries
        else entries.map (fun e =>
          if e.id = p.entry_id ∧ e.is_alive then
            { e with is_alive := false, eliminated_week := some week }
          else e)
      ({ p with outcome := some won }, entries', 1)
  else (p, entries, 0)

/-- One iteration of `_update_pick_outcomes`' loop over the pick table,
threading the rebuilt pick list, the entry table and the counter. -/
def pickFoldStep (games : List GameRec) (season week : Nat)
    (acc : List PickRec × List EntryRec × Nat) (p : PickRec) :
    List PickRec × List EntryRec × Nat :=
  let s := updateOnePick games season week acc.2.1 p
  (acc.1 ++ [s.1], s.2.1, acc.2.2 + s.2.2)

/-- `_update_pick_outcomes`: reconcile every pick of `(season, week)` with
its completed game, eliminating entries that lost.  Returns the new store
and the number of picks updated. -/
def update_pick_outcomes (db : Db) (season week : Nat) : Db × Nat :=
  let r := db.picks.foldl (pickFoldStep db.games season week) ([], db.entries, 0)
  ({ db with picks := r.1, entries := r.2.1 }, r.2.2)

/-! ### Matchup loader and portfolio coordinator (`monte_carlo.py`) -/

structure WeekMatchup where
  week : Nat
  team_abbr : String
  team_id : Nat
  opponent_abbr : String
  is_home : Bool
  win_prob : Option ℚ
deriving DecidableEq, Repr

/-- `team_abbrs.get(id, "")` over the `Team` table. -/
def teamAbbrOf (teams : List TeamRec) (tid : Nat) : String :=
  match teams.find? (fun t => t.id == tid) with
  | some t => t.abbr
  | none => ""

/-- The two `WeekMatchup`s a game contributes (home side first). -/
def gameMatchups (teams : List TeamRec) (g : GameRec) : List WeekMatchup :=
  [ { week := g.week, team_abbr := teamAbbrOf teams g.home_team_id,
      team_id := g.home_team_id, opponent_abbr := teamAbbrOf teams g.away_team_id,
      is_home := true, win_prob := g.home_win_prob },
    { week := g.week, team_abbr := teamAbbrOf teams g.away_team_id,
      team_id := g.away_team_id, opponent_abbr := teamAbbrOf teams g.home_team_id,
      is_home := false, win_prob := g.away_win_prob } ]

/-- Append a matchup to its week's bucket (a Python dict keyed by week,
in insertion order). -/
def insertByWeek (acc : List (Nat × List WeekMatchup)) (m : WeekMatchup) :
    List (Nat × List WeekMatchup) :=
  if acc.any (fun p => p.1 == m.week) then
    acc.map (fun p => if p.1 == m.week then (p.1, p.2 ++ [m]) else p)
  else acc ++ [(m.week, [m])]

/-- `get_remaining_matchups`: unplayed games with a win probability, from
`from_week` on, ordered by `(week, id)`, emitted twice per game and
grouped by week. -/
def get_remaining_matchups (db : Db) (season from_week : Nat) :
    List (Nat × List WeekMatchup) :=
  let games := insertionSortBy
    (fun g1 g2 => g1.week < g2.week || (g1.week == g2.week && g1.id ≤ g2.id))
    (db.games.filter (fun g =>
      g.season == season && from_week ≤ g.week &&
      g.home_win.isNone && g.home_win_prob.isSome))
  (games.flatMap (gameMatchups db.teams)).foldl insertByWeek []

/-- `_build_win_matrix`: rows are `weeks` in order, columns `all_teams`;
a cell is the team's win probability that week, `none` (NaN) on a bye. -/
def build_win_matrix (matchups_by_week : List (Nat × List WeekMatchup))
    (weeks : List Nat) (all_teams : List String) : WinMatrix :=
  weeks.map (fun week =>
    let ms := (((matchups_by_week.find? (fun p => p.1 == week)).map Prod.snd).getD [])
    ms.foldl (fun (row : Row) m =>
      match all_teams.indexOf? m.team_abbr with
      | some ti => row.set ti m.win_prob
      | none => row)
      (List.replicate all_teams.length none))

structure EntryState where
  entry_id : Nat
  used_teams : List String
  is_alive : Bool
deriving DecidableEq, Repr

structure Recommendation where
  entry_id : Nat
  week : Nat
  recommended_team : String
  win_prob : Option ℚ
  survival_prob : ℚ
  portfolio_coverage : ℚ
  strategy_picks : List (Nat × String)
deriving DecidableEq, Repr

/-- Python's `max(d, key=d.__getitem__)` over an insertion-ordered dict:
the first key attaining the maximal value. -/
def pyMaxBySnd : List (String × ℚ) → Option (String × ℚ)
  | [] => none
  | x :: xs => some (xs.foldl (fun best y => if best.2 < y.2 then y else best) x)

/-- `diversity_score(t) = p · (1 − 0.05 · committed.count t)` over the
insertion-ordered single-entry survival dict. -/
def diversityScores (single_probs : List (String × ℚ)) (committed : List String) :
    List (String × ℚ) :=
  single_probs.map (fun ts =>
    (ts.1, ts.2 * (1 - (1 / 20 : ℚ) * (committed.count ts.1 : ℚ))))

/-- `used_mask` construction of `simulate_portfolio` (a zero vector with
the indices of the entry's used teams set). -/
def buildUsedMask (all_teams : List String) (used_teams : List String) : List Bool :=
  used_teams.foldl (fun mask t =>
    match all_teams.indexOf? t with
    | some ti => mask.set ti true
    | none => mask)
    (List.replicate all_teams.length false)

/-- `sorted(set(...))` over team abbreviations. -/
def sortedTeams (abbrs : List String) : List String :=
  insertionSortBy (fun a b => a ≤ b) abbrs.dedup

/-- The per-entry body of `simulate_portfolio`'s loop.  The accumulator
carries `(recommendations, committed_this_week, rng)`. -/
def portfolioStep (win_matrix : WinMatrix) (all_teams : List String)
    (weeks : List Nat) (matchups_by_week : List (Nat × List WeekMatchup))
    (current_week : Nat) (n_sims : Nat)
    (acc : List Recommendation × List String × RngState) (es : EntryState) :
    List Recommendation × List String × RngState :=
  if !es.is_alive then acc
  else
    let used_mask := buildUsedMask all_teams es.used_teams
    let strat := simulate_full_season_strategy win_matrix used_mask all_teams n_sims acc.2.2
    let sp := simulate_single_entry_rng win_matrix used_mask all_teams n_sims acc.2.2
    let single_probs := sp.1
    let diversity_scores := diversityScores single_probs acc.2.1
    match pyMaxBySnd diversity_scores with
    | none => (acc.1, acc.2.1, sp.2)
    | some best =>
      let recommended_team := best.1
      let week_matchups := (((matchups_by_week.find? (fun p => p.1 == current_week)).map Prod.snd).getD [])
      let win_prob_this_week :=
        match week_matchups.find? (fun m => m.team_abbr == recommended_team) with
        | some m => m.win_prob
        | none => none
      let rec1 : Recommendation :=
        { entry_id := es.entry_id, week := current_week,
          recommended_team := recommended_team,
          win_prob := win_prob_this_week,
          survival_prob := (((single_probs.find? (fun ts => ts.1 == recommended_team)).map Prod.snd).getD 0),
          portfolio_coverage := (((diversity_scores.find? (fun ts => ts.1 == recommended_team)).map Prod.snd).getD 0),
          strategy_picks := (List.range (min weeks.length strat.1.length)).map
            (fun i => (weeks.getD i 0, strat.1.getD i "")) }
      (acc.1 ++ [rec1], acc.2.1 ++ [recommended_team], sp.2)

/-! ### Specification-side predicates used by the theorems -/

/-- Availability in the greedy continuation as the spec describes it:
column in range, not used, not NaN. -/
def contAvailable (row : Row) (used : List Bool) (t : Nat) : Bool :=
  decide (t < row.length) && !(used.getD t false) && (row.getD t none).isSome

/-- Every non-NaN cell of a row is a genuine probability in `[0, 1]`. -/
def rowInRange (row : Row) : Prop :=
  ∀ c ∈ row, ∀ v : ℚ, c = some v → 0 ≤ v ∧ v ≤ 1

/-- Every non-NaN cell of the matrix is a genuine probability. -/
def matrixInRange (wm : WinMatrix) : Prop :=
  ∀ row ∈ wm, rowInRange row

/-- The greedy continuation pick sequence of `simulate_single_entry` once
the first pick is folded into `used`: one pick per week, `none` marking the
dead week on which every simulation is killed.  It is a function of the
matrix and the used mask alone — no simulation outcome enters. -/
def greedyPickSeq : WinMatrix → List Bool → List (Option Nat)
  | [], _ => []
  | row :: rest, used =>
    match greedyStep row used with
    | none => [none]
    | some b => some b :: greedyPickSeq rest (used.set b true)

/-- Replay of the week loop of `simulate_single_entry` along a fixed,
outcome-independent pick sequence. -/
def simWeeksFollowing : List (Option Nat) → WinMatrix → List Bool → RngState → List Bool × RngState
  | _, [], alive, r => (alive, r)
  | [], _ :: _, alive, r => (alive, r)
  | pk :: pks, row :: _rest, alive, r =>
    if alive.all (fun a => !a) then (alive, r)
    else
      match pk with
      | none => (alive.map (fun _ => false), r)
      | some b =>
        let o := drawOutcomes r alive.length (valAt row b)
        simWeeksFollowing pks _rest (List.zipWith (fun a c => a && c) alive o.1) o.2

/-- Week-aligned product of the win probabilities of an internal beam pick
sequence; the sentinel `-1` contributes the factor `0`. -/
def picksProd : WinMatrix → List ℤ → ℚ
  | row :: rest, t :: ts =>
    (if 0 ≤ t then valAt row t.toNat else 0) * picksProd rest ts
  | _, _ => 1

/-- A greedy full-season trace: each week's pick is available (in range,
not yet used, not NaN) and of maximal win probability among the available
columns; the trace covers every week. -/
def isGreedyTrace : WinMatrix → List Bool → List Nat → Bool
  | [], _, ts => ts.isEmpty
  | _ :: _, _, [] => false
  | row :: rest, used, t :: ts =>
    contAvailable row used t &&
    (List.range row.length).all
      (fun u => !(contAvailable row used u) || decide (valAt row u ≤ valAt row t)) &&
    isGreedyTrace rest (used.set t true) ts

/-- Week-aligned product of the win probabilities along a trace. -/
def traceProd : WinMatrix → List Nat → ℚ
  | row :: rest, t :: ts => valAt row t * traceProd rest ts
  | _, _ => 1

/-- The recommendation property of C6 for one entry: `t` carries a
diversity score (its single-entry survival times `1 − 0.05·k`, `k` the
number of earlier recommendations of the same team) that is maximal among
the candidate teams, and among equal scores `t` is the lexicographically
smallest abbreviation. -/
def recArgmax (win_matrix : WinMatrix) (all_teams : List String) (n_sims : Nat)
    (es : EntryState) (r0 : RngState) (committed : List String) (t : String) : Prop :=
  ∃ sc : ℚ,
    (t, sc) ∈ diversityScores
      ((simulate_single_entry_rng win_matrix (buildUsedMask all_teams es.used_teams)
        all_teams n_sims r0).1) committed ∧
    (∀ x ∈ diversityScores
        ((simulate_single_entry_rng win_matrix (buildUsedMask all_teams es.used_teams)
          all_teams n_sims r0).1) committed, x.2 ≤ sc) ∧
    (∀ x ∈ diversityScores
        ((simulate_single_entry_rng win_matrix (buildUsedMask all_teams es.used_teams)
          all_teams n_sims r0).1) committed, x.2 = sc → t ≤ x.1)

/-- Pick invariants of §3: at most one pick per `(entry, season, week)`
and at most one pick per `(entry, team)`. -/
def pickInvariants (picks : List PickRec) : Prop :=
  picks.Pairwise (fun p q =>
    ¬(p.entry_id = q.entry_id ∧ p.season = q.season ∧ p.week = q.week)) ∧
  picks.Pairwise (fun p q => ¬(p.entry_id = q.entry_id ∧ p.team_id = q.team_id))

/-- A pick of `(season, week)` with pending outcome whose completed game
says the picked team lost. -/
def pickLoses (games : List GameRec) (season week : Nat) (p : PickRec) : Bool :=
  p.season == season && p.week == week && p.outcome.isNone &&
  match findCompletedGame games season week p.team_id with
  | some g =>
    !(if g.home_team_id = p.team_id then g.home_win.getD false else !(g.home_win.getD false))
  | none => false

/-- `simulate_portfolio`. -/
def simulate_portfolio (db : Db) (season current_week : Nat)
    (entry_states : List EntryState) (n_sims : Nat) : List Recommendation :=
  let r := defaultRng SEED
  let matchups_by_week := get_remaining_matchups db season current_week
  if matchups_by_week.isEmpty then []
  else
    let weeks := insertionSortBy (fun a b => a ≤ b) (matchups_by_week.map Prod.fst)
    let all_teams := sortedTeams ((matchups_by_week.flatMap Prod.snd).map (fun m => m.team_abbr))
    let win_matrix := build_win_matrix matchups_by_week weeks all_teams
    (entry_states.foldl
      (portfolioStep win_matrix all_teams weeks matchups_by_week current_week n_sims)
      ([], [], r)).1

/-! ### The call environment of the three simulators

The determinism contract is about successive calls made by the running
process.  The only ambient state a call could observe is the entropy the
runtime would hand a seedless `np.random.default_rng()`; a seeded
`default_rng(seed)` is documented to be a pure function of the seed and
reads no ambient state.  The simulators are therefore modelled as
functions of that ambient entropy: `simulate_portfolio` seeds its
generator unconditionally (`rng = np.random.default_rng(SEED)`), and the
other two seed it whenever their optional `rng` argument is `None`
(`if rng is None: rng = np.random.default_rng(SEED)`). -/

/-- `np.random.default_rng(seed)` evaluated in an ambient environment:
seeded construction is a pure function of the seed; only the seedless
form reads the process entropy. -/
def default_rng (seed : Option Nat) (entropy : RngState) : RngState :=
  match seed with
  | some s => defaultRng s
  | none => entropy

/-- A call to `simulate_single_entry` in an ambient environment, with its
`rng: Optional[Generator] = None` keyword argument. -/
def simulate_single_entry_env (entropy : RngState) (win_matrix : WinMatrix)
    (used_mask : List Bool) (all_teams : List String) (n_sims : Nat)
    (rngArg : Option RngState) : List (String × ℚ) :=
  simulate_single_entry win_matrix used_mask all_teams n_sims
    (match rngArg with
     | some r => r
     | none => default_rng (some SEED) entropy)

/-- A call to `simulate_full_season_strategy` in an ambient environment,
with its `rng: Optional[Generator] = None` keyword argument. -/
def simulate_full_season_strategy_env (entropy : RngState) (win_matrix : WinMatrix)
    (used_mask : List Bool) (all_teams : List String) (n_sims : Nat)
    (rngArg : Option RngState) : List String × ℚ :=
  simulate_full_season_strategy win_matrix used_mask all_teams n_sims
    (match rngArg with
     | some r => r
     | none => default_rng (some SEED) entropy)

/-- The body of `simulate_portfolio` parameterized by the generator state
its `rng = np.random.default_rng(SEED)` line constructs. -/
def simulate_portfolio_rng (db : Db) (season current_week : Nat)
    (entry_states : List EntryState) (n_sims : Nat) (r : RngState) :
    List Recommendation :=
  let matchups_by_week := get_remaining_matchups db season current_week
  if matchups_by_week.isEmpty then []
  else
    let weeks := insertionSortBy (fun a b => a ≤ b) (matchups_by_week.map Prod.fst)
    let all_teams := sortedTeams ((matchups_by_week.flatMap Prod.snd).map (fun m => m.team_abbr))
    let win_matrix := build_win_matrix matchups_by_week weeks all_teams
    (entry_states.foldl
      (portfolioStep win_matrix all_teams weeks matchups_by_week current_week n_sims)
      ([], [], r)).1

/-- A call to `simulate_portfolio` in an ambient environment: the body
run with the generator `default_rng(SEED)` constructs there. -/
def simulate_portfolio_env (entropy : RngState) (db : Db) (season current_week : Nat)
    (entry_states : List EntryState) (n_sims : Nat) : List Recommendation :=
  simulate_portfolio_rng db season current_week entry_states n_sims
    (default_rng (some SEED) entropy)

/-! ## Helper lemmas -/

theorem insertSortedBy_perm (le : α → α → Bool) (x : α) (l : List α) :
    List.Perm (insertSortedBy le x l) (x :: l) := by
  induction l with
  | nil => exact List.Perm.refl _
  | cons y ys ih =>
    by_cases h : le x y = true
    · simp [insertSortedBy, h]
    · simp only [insertSortedBy, h]
      rw [if_neg (by simp [h])]
      exact (List.Perm.cons y ih).trans (List.Perm.swap x y ys)

theorem insertionSortBy_perm (le : α → α → Bool) (l : List α) :
    List.Perm (insertionSortBy le l) l := by
  induction l with
  | nil => exact List.Perm.refl _
  | cons x xs ih =>
    exact (insertSortedBy_perm le x (insertionSortBy le xs)).trans (List.Perm.cons x ih)

theorem beamExpand_mem {row : Row} {states : List BeamState} {t : BeamState}
    (h : t ∈ beamExpand row states) :
    ∃ s ∈ states,
      (t.2.1 = s.2.1 ++ [(-1 : ℤ)] ∧ t.2.2 = 0) ∨
      ∃ u : ℕ, u ∈ availableTeams row s.1 ∧
        t.2.1 = s.2.1 ++ [(u : ℤ)] ∧ t.2.2 = s.2.2 * valAt row u := by
  simp only [beamExpand, List.mem_flatMap] at h
  obtain ⟨s, hs, ht⟩ := h
  refine ⟨s, hs, ?_⟩
  by_cases he : (availableTeams row s.1).isEmpty
  · rw [if_pos he] at ht
    simp only [List.mem_singleton] at ht
    subst ht
    exact Or.inl ⟨rfl, rfl⟩
  · rw [if_neg he] at ht
    simp only [List.mem_map] at ht
    obtain ⟨u, hu, hut⟩ := ht
    subst hut
    exact Or.inr ⟨u, hu, rfl, rfl⟩

theorem beamExpand_ne_nil {row : Row} {states : List BeamState}
    (h : states ≠ []) : beamExpand row states ≠ [] := by
  obtain ⟨s, ss, rfl⟩ := List.exists_cons_of_ne_nil h
  simp only [beamExpand, List.flatMap_cons]
  intro hc
  rcases List.append_eq_nil.mp hc with ⟨h1, -⟩
  by_cases he : (availableTeams row s.1).isEmpty
  · rw [if_pos he] at h1; cases h1
  · rw [if_neg he] at h1
    have : availableTeams row s.1 = [] := List.map_eq_nil_iff.mp h1
    rw [this] at he
    simp at he

theorem beamLoop_ne_nil : ∀ (wm : WinMatrix) (states : List BeamState),
    states ≠ [] → beamLoop wm states ≠ [] := by
  intro wm
  induction wm with
  | nil => intro states h; simpa [beamLoop] using h
  | cons row rest ih =>
    intro states h
    have hne : beamExpand row states ≠ [] := beamExpand_ne_nil h
    simp only [beamLoop]
    rw [if_neg (by simpa [List.isEmpty_iff] using hne)]
    apply ih
    cases hsort : beamSort (beamExpand row states) with
    | nil =>
      have hp := insertionSortBy_perm (fun a b => decide (b.2.2 ≤ a.2.2)) (beamExpand row states)
      rw [show beamSort (beamExpand row states) =
          insertionSortBy (fun a b => decide (b.2.2 ≤ a.2.2)) (beamExpand row states) from rfl] at hsort
      rw [hsort] at hp
      exact absurd hp.symm.eq_nil hne
    | cons a as => simp [BEAM_WIDTH]

theorem beamLoop_mem : ∀ (wm : WinMatrix) (states : List BeamState) (t : BeamState),
    t ∈ beamLoop wm states →
    ∃ s ∈ states, ∃ ext : List ℤ,
      t.2.1 = s.2.1 ++ ext ∧ t.2.2 = s.2.2 * picksProd wm ext := by
  intro wm
  induction wm with
  | nil =>
    intro states t ht
    exact ⟨t, by simpa [beamLoop] using ht, [], by simp, by simp [picksProd]⟩
  | cons row rest ih =>
    intro states t ht
    simp only [beamLoop] at ht
    by_cases he : (beamExpand row states).isEmpty
    · rw [if_pos he] at ht
      exact ⟨t, ht, [], by simp, by simp [picksProd]⟩
    · rw [if_neg he] at ht
      obtain ⟨s1, hs1, ext1, hpk1, hsv1⟩ := ih _ t ht
      have hs1' : s1 ∈ beamExpand row states :=
        (insertionSortBy_perm _ _).mem_iff.mp (List.mem_of_mem_take hs1)
      obtain ⟨s, hs, hcase⟩ := beamExpand_mem hs1'
      rcases hcase with ⟨hp, hv⟩ | ⟨u, hu, hp, hv⟩
      · refine ⟨s, hs, (-1 : ℤ) :: ext1, ?_, ?_⟩
        · rw [hpk1, hp]; simp
        · rw [hsv1, hv]; simp [picksProd]
      · refine ⟨s, hs, (u : ℤ) :: ext1, ?_, ?_⟩
        · rw [hpk1, hp]; simp
        · rw [hsv1, hv]
          simp only [picksProd, Int.toNat_natCast]
          rw [if_pos (by exact_mod_cast Int.ofNat_nonneg u)]
          ring

theorem argmaxIdx_lt_length : ∀ (l : List ℚ), l ≠ [] → argmaxIdx l < l.length
  | [], h => absurd rfl h
  | [_], _ => by simp [argmaxIdx]
  | x :: y :: ys, _ => by
    simp only [argmaxIdx]
    by_cases hc : x < (y :: ys).getD (argmaxIdx (y :: ys)) 0
    · rw [if_pos hc]
      have := argmaxIdx_lt_length (y :: ys) (by simp)
      simpa using Nat.succ_lt_succ this
    · rw [if_neg hc]
      simp

theorem argmaxIdx_le : ∀ (l : List ℚ) (i : Nat), i < l.length →
    l.getD i 0 ≤ l.getD (argmaxIdx l) 0
  | [], i, h => by simp at h
  | [x], i, h => by
    have hi : i = 0 := by simpa using Nat.lt_one_iff.mp (by simpa using h)
    subst hi
    simp [argmaxIdx]
  | x :: y :: ys, i, h => by
    simp only [argmaxIdx]
    by_cases hc : x < (y :: ys).getD (argmaxIdx (y :: ys)) 0
    · rw [if_pos hc]
      cases i with
      | zero => simpa using le_of_lt hc
      | succ k =>
        have hk : k < (y :: ys).length := by simpa using h
        simpa using argmaxIdx_le (y :: ys) k hk
    · rw [if_neg hc]
      push_neg at hc
      cases i with
      | zero => simp
      | succ k =>
        have hk : k < (y :: ys).length := by simpa using h
        have := (argmaxIdx_le (y :: ys) k hk).trans hc
        simpa using this

theorem argmaxIdx_first : ∀ (l : List ℚ) (i : Nat), i < argmaxIdx l →
    l.getD i 0 < l.getD (argmaxIdx l) 0
  | [], i, h => by simp [argmaxIdx] at h
  | [x], i, h => by simp [argmaxIdx] at h
  | x :: y :: ys, i, h => by
    simp only [argmaxIdx] at h ⊢
    by_cases hc : x < (y :: ys).getD (argmaxIdx (y :: ys)) 0
    · rw [if_pos hc]
      rw [if_pos hc] at h
      cases i with
      | zero => simpa using hc
      | succ k =>
        have hk : k < argmaxIdx (y :: ys) := Nat.lt_of_succ_lt_succ h
        simpa using argmaxIdx_first (y :: ys) k hk
    · rw [if_neg hc] at h
      simp at h

theorem maskRow_length (row : Row) (used : List Bool) :
    (maskRow row used).length = min row.length used.length := by
  simp [maskRow]

theorem maskRow_getD : ∀ (row : Row) (used : List Bool) (t : Nat) (d : ℚ),
    t < (maskRow row used).length →
    (maskRow row used).getD t d =
      if used.getD t false = true then -1 else (row.getD t none).getD (-1)
  | [], us, t, d, h => by simp [maskRow] at h
  | r :: rs, [], t, d, h => by simp [maskRow] at h
  | r :: rs, u :: us, 0, d, h => by
    cases u <;> simp [maskRow]
  | r :: rs, u :: us, t + 1, d, h => by
    have ht : t < (maskRow rs us).length := by
      simpa [maskRow_length, Nat.succ_lt_succ_iff] using h
    simpa [maskRow] using maskRow_getD rs us t d ht

theorem greedyStep_some_pos {row : Row} {used : List Bool} {b : Nat}
    (h : greedyStep row used = some b) :
    b < (maskRow row used).length ∧ used.getD b false = false ∧
      ∃ q : ℚ, row.getD b none = some q ∧ 0 ≤ q := by
  simp only [greedyStep] at h
  by_cases hlt : (maskRow row used).getD (argmaxIdx (maskRow row used)) (-1) < 0
  · rw [if_pos hlt] at h; cases h
  · rw [if_neg hlt] at h
    injection h with hb
    rw [hb] at hlt
    push_neg at hlt
    have hblen : b < (maskRow row used).length := by
      by_contra hge
      push_neg at hge
      rw [List.getD_eq_default _ _ hge] at hlt
      norm_num at hlt
    rw [maskRow_getD row used b (-1) hblen] at hlt
    by_cases hu : used.getD b false = true
    · rw [if_pos hu] at hlt; norm_num at hlt
    · rw [if_neg hu] at hlt
      refine ⟨hblen, by simpa using hu, ?_⟩
      cases hrb : row.getD b none with
      | none => rw [hrb] at hlt; norm_num at hlt
      | some q => rw [hrb] at hlt; exact ⟨q, rfl, by simpa using hlt⟩

theorem contAvailable_iff {row : Row} {used : List Bool} {t : Nat} :
    contAvailable row used t = true ↔
      t < row.length ∧ used.getD t false = false ∧ (row.getD t none).isSome = true := by
  simp [contAvailable, Bool.and_eq_true, Bool.not_eq_true', and_assoc]

theorem contAvailable_val_nonneg {row : Row} {used : List Bool} {t : Nat}
    (hin : rowInRange row) (h : contAvailable row used t = true) :
    0 ≤ valAt row t ∧ valAt row t ≤ 1 := by
  obtain ⟨ht, -, hsome⟩ := contAvailable_iff.mp h
  obtain ⟨q, hq⟩ := Option.isSome_iff_exists.mp hsome
  have hv : valAt row t = q := by
    rw [show valAt row t = (List.getD row t none).getD 0 from rfl, hq]
    rfl
  have hgd : List.getD row t none = row[t] := List.getD_eq_getElem row none ht
  have hmem : row[t] ∈ row := List.getElem_mem ht
  have hq' : row[t] = some q := by rw [← hgd]; exact hq
  rw [hv]
  exact hin _ hmem q hq'

theorem masked_getD_avail {row : Row} {used : List Bool} {t : Nat} (d : ℚ)
    (hu : t < used.length) (h : contAvailable row used t = true) :
    (maskRow row used).getD t d = valAt row t := by
  obtain ⟨ht, hused, hsome⟩ := contAvailable_iff.mp h
  obtain ⟨q, hq⟩ := Option.isSome_iff_exists.mp hsome
  have htm : t < (maskRow row used).length := by
    rw [maskRow_length]; exact lt_min ht hu
  rw [maskRow_getD row used t d htm, hused,
    show valAt row t = (List.getD row t none).getD 0 from rfl, hq]
  simp

theorem masked_getD_not_avail {row : Row} {used : List Bool} {t : Nat} (d : ℚ)
    (htm : t < (maskRow row used).length) (h : contAvailable row used t = false) :
    (maskRow row used).getD t d = -1 := by
  have ht : t < row.length := lt_of_lt_of_le htm (by rw [maskRow_length]; exact min_le_left _ _)
  have hu : t < used.length := lt_of_lt_of_le htm (by rw [maskRow_length]; exact min_le_right _ _)
  rw [maskRow_getD row used t d htm]
  by_cases hused : used.getD t false = true
  · rw [if_pos hused]
  · rw [if_neg hused]
    cases hq : row.getD t none with
    | none => rfl
    | some q =>
      exfalso
      have : contAvailable row used t = true :=
        contAvailable_iff.mpr ⟨ht, by simpa using hused, by rw [hq]; rfl⟩
      rw [this] at h; cases h

theorem greedyStep_eq_argmax {row : Row} {used : List Bool} {b : Nat}
    (h : greedyStep row used = some b) : b = argmaxIdx (maskRow row used) := by
  simp only [greedyStep] at h
  by_cases hlt : (maskRow row used).getD (argmaxIdx (maskRow row used)) (-1) < 0
  · rw [if_pos hlt] at h; cases h
  · rw [if_neg hlt] at h; injection h with hb; exact hb.symm

theorem greedyStep_some_of_avail {row : Row} {used : List Bool} {t : Nat}
    (hlen : used.length = row.length) (hin : rowInRange row)
    (h : contAvailable row used t = true) :
    greedyStep row used = some (argmaxIdx (maskRow row used)) := by
  obtain ⟨ht, -, -⟩ := contAvailable_iff.mp h
  have hu : t < used.length := hlen ▸ ht
  have htm : t < (maskRow row used).length := by
    rw [maskRow_length]; exact lt_min ht hu
  have hne : maskRow row used ≠ [] := by
    intro hc; rw [hc] at htm; simp at htm
  have ha : argmaxIdx (maskRow row used) < (maskRow row used).length :=
    argmaxIdx_lt_length _ hne
  have h1 : (maskRow row used).getD t 0 ≤ (maskRow row used).getD (argmaxIdx (maskRow row used)) 0 :=
    argmaxIdx_le _ t htm
  have h2 : (maskRow row used).getD t 0 = valAt row t := masked_getD_avail 0 hu h
  have h3 : 0 ≤ valAt row t := (contAvailable_val_nonneg hin h).1
  have h4 : (maskRow row used).getD (argmaxIdx (maskRow row used)) (-1) =
      (maskRow row used).getD (argmaxIdx (maskRow row used)) 0 := by
    rw [List.getD_eq_getElem _ _ ha, List.getD_eq_getElem _ _ ha]
  simp only [greedyStep]
  rw [if_neg (by rw [h4]; rw [h2] at h1; exact not_lt.mpr (le_trans h3 h1))]

theorem simWeeks_eq_following : ∀ (wm : WinMatrix) (used alive : List Bool) (r : RngState),
    simWeeks wm used alive r = simWeeksFollowing (greedyPickSeq wm used) wm alive r := by
  intro wm
  induction wm with
  | nil => intro used alive r; rfl
  | cons row rest ih =>
    intro used alive r
    cases hg : greedyStep row used with
    | none =>
      simp only [simWeeks, greedyPickSeq, hg, simWeeksFollowing]
    | some b =>
      simp only [simWeeks, greedyPickSeq, hg, simWeeksFollowing]
      by_cases hd : alive.all (fun a => !a) = true
      · rw [if_pos hd, if_pos hd]
      · rw [if_neg hd, if_neg hd]
        exact ih _ _ _

theorem updateOnePick_fst (games : List GameRec) (season week : Nat)
    (E1 E2 : List EntryRec) (p : PickRec) :
    (updateOnePick games season week E1 p).1 = (updateOnePick games season week E2 p).1 := by
  unfold updateOnePick
  by_cases hc : p.season = season ∧ p.week = week ∧ p.outcome = none
  · rw [if_pos hc, if_pos hc]
    cases hfg : findCompletedGame games season week p.team_id with
    | none => rfl
    | some g => rfl
  · rw [if_neg hc, if_neg hc]

theorem updateOnePick_entries (games : List GameRec) (season week : Nat)
    (E : List EntryRec) (p : PickRec) :
    (updateOnePick games season week E p).2.1 =
      if pickLoses games season week p = true then
        E.map (fun e => if e.id = p.entry_id ∧ e.is_alive then
          { e with is_alive := false, eliminated_week := some week } else e)
      else E := by
  by_cases hc : p.season = season ∧ p.week = week ∧ p.outcome = none
  · obtain ⟨h1, h2, h3⟩ := hc
    cases hfg : findCompletedGame games season week p.team_id with
    | none =>
      rw [updateOnePick, if_pos ⟨h1, h2, h3⟩, hfg]
      rw [if_neg (by simp [pickLoses, hfg])]
    | some g =>
      rw [updateOnePick, if_pos ⟨h1, h2, h3⟩, hfg]
      simp only
      cases hwon : (if g.home_team_id = p.team_id then g.home_win.getD false
          else !(g.home_win.getD false)) with
      | true =>
        rw [if_pos (by rfl)]
        rw [if_neg (by simp [pickLoses, hfg, h1, h2, h3, hwon])]
      | false =>
        rw [if_neg (by simp)]
        rw [if_pos (by simp [pickLoses, hfg, h1, h2, h3, hwon,
          Option.isNone_iff_eq_none])]
  · rw [updateOnePick, if_neg hc]
    rw [if_neg ?_]
    simp only [pickLoses, Bool.and_eq_true, beq_iff_eq, Option.isNone_iff_eq_none]
    rintro ⟨⟨⟨hs, hw⟩, ho⟩, -⟩
    exact hc ⟨hs, hw, ho⟩

theorem foldStep_picks (games : List GameRec) (season week : Nat) :
    ∀ (ps : List PickRec) (accP : List PickRec) (accE : List EntryRec) (accN : Nat),
    (ps.foldl (pickFoldStep games season week) (accP, accE, accN)).1 =
      accP ++ ps.map (fun p => (updateOnePick games season week [] p).1) := by
  intro ps
  induction ps with
  | nil => intro accP accE accN; simp
  | cons p ps ih =>
    intro accP accE accN
    rw [List.foldl_cons, List.map_cons]
    show (ps.foldl (pickFoldStep games season week)
      (accP ++ [(updateOnePick games season week accE p).1],
       (updateOnePick games season week accE p).2.1,
       accN + (updateOnePick games season week accE p).2.2)).1 = _
    rw [ih]
    rw [updateOnePick_fst games season week accE []]
    simp

/-- The entry table after reconciling a list of picks: an alive entry with
a losing pick among them is eliminated with the given week; everything
else is untouched. -/
theorem foldStep_entries (games : List GameRec) (season week : Nat) :
    ∀ (ps : List PickRec) (accP : List PickRec) (accE : List EntryRec) (accN : Nat),
    (ps.foldl (pickFoldStep games season week) (accP, accE, accN)).2.1 =
      accE.map (fun e =>
        if e.is_alive ∧ ∃ q ∈ ps, pickLoses games season week q = true ∧ q.entry_id = e.id then
          { e with is_alive := false, eliminated_week := some week }
        else e) := by
  intro ps
  induction ps with
  | nil =>
    intro accP accE accN
    simp
  | cons p ps ih =>
    intro accP accE accN
    rw [List.foldl_cons]
    show (ps.foldl (pickFoldStep games season week)
      (accP ++ [(updateOnePick games season week accE p).1],
       (updateOnePick games season week accE p).2.1,
       accN + (updateOnePick games season week accE p).2.2)).2.1 = _
    rw [ih, updateOnePick_entries]
    by_cases hl : pickLoses games season week p = true
    · rw [if_pos hl, List.map_map]
      apply List.map_congr_left
      intro e he
      simp only [Function.comp_apply]
      by_cases hcase : e.id = p.entry_id ∧ e.is_alive
      · rw [if_pos hcase]
        rw [if_neg (by simp)]
        rw [if_pos ⟨hcase.2, p, List.mem_cons_self p ps, hl, hcase.1.symm⟩]
      · rw [if_neg hcase]
        by_cases halive : e.is_alive
        · have hne : ¬ p.entry_id = e.id := by
            intro h
            exact hcase ⟨h.symm, halive⟩
          by_cases hex : ∃ q ∈ ps, pickLoses games season week q = true ∧ q.entry_id = e.id
          · rw [if_pos ⟨halive, hex⟩]
            obtain ⟨q, hq, hql, hqe⟩ := hex
            rw [if_pos ⟨halive, q, List.mem_cons_of_mem p hq, hql, hqe⟩]
          · rw [if_neg (by rintro ⟨-, hex2⟩; exact hex hex2)]
            rw [if_neg ?_]
            rintro ⟨-, q, hq, hql, hqe⟩
            rcases List.mem_cons.mp hq with rfl | hq2
            · exact hne hqe
            · exact hex ⟨q, hq2, hql, hqe⟩
        · rw [if_neg (by rintro ⟨ha, -⟩; exact halive ha)]
          rw [if_neg (by rintro ⟨ha, -⟩; exact halive ha)]
    · rw [if_neg hl]
      apply List.map_congr_left
      intro e he
      by_cases hex : e.is_alive ∧ ∃ q ∈ ps, pickLoses games season week q = true ∧ q.entry_id = e.id
      · rw [if_pos hex]
        obtain ⟨ha, q, hq, hql, hqe⟩ := hex
        rw [if_pos ⟨ha, q, List.mem_cons_of_mem p hq, hql, hqe⟩]
      · rw [if_neg hex, if_neg ?_]
        rintro ⟨ha, q, hq, hql, hqe⟩
        rcases List.mem_cons.mp hq with rfl | hq2
        · rw [hql] at hl; exact hl rfl
        · exact hex ⟨ha, q, hq2, hql, hqe⟩

theorem pyFold_snd_le : ∀ (xs : List (String × ℚ)) (b : String × ℚ),
    b.2 ≤ (xs.foldl (fun best y => if best.2 < y.2 then y else best) b).2 := by
  intro xs
  induction xs with
  | nil => intro b; exact le_refl _
  | cons x xs ih =>
    intro b
    rw [List.foldl_cons]
    by_cases hc : b.2 < x.2
    · rw [if_pos hc]
      exact le_of_lt (lt_of_lt_of_le hc (ih x))
    · rw [if_neg hc]
      exact ih b

theorem pyFold_mem : ∀ (xs : List (String × ℚ)) (b : String × ℚ),
    (xs.foldl (fun best y => if best.2 < y.2 then y else best) b) ∈ b :: xs := by
  intro xs
  induction xs with
  | nil => intro b; simp
  | cons x xs ih =>
    intro b
    rw [List.foldl_cons]
    by_cases hc : b.2 < x.2
    · rw [if_pos hc]
      have := ih x
      simp only [List.mem_cons] at this ⊢
      tauto
    · rw [if_neg hc]
      have := ih b
      simp only [List.mem_cons] at this ⊢
      tauto

theorem pyFold_max : ∀ (xs : List (String × ℚ)) (b : String × ℚ),
    ∀ x ∈ xs, x.2 ≤ (xs.foldl (fun best y => if best.2 < y.2 then y else best) b).2 := by
  intro xs
  induction xs with
  | nil => intro b x hx; simp at hx
  | cons z xs ih =>
    intro b x hx
    rw [List.foldl_cons]
    rcases List.mem_cons.mp hx with rfl | hx2
    · by_cases hc : b.2 < x.2
      · rw [if_pos hc]; exact pyFold_snd_le xs x
      · rw [if_neg hc]
        exact le_trans (not_lt.mp hc) (pyFold_snd_le xs b)
    · by_cases hc : b.2 < z.2
      · rw [if_pos hc]; exact ih z x hx2
      · rw [if_neg hc]; exact ih b x hx2

theorem pyFold_ties : ∀ (xs : List (String × ℚ)) (b : String × ℚ),
    (∀ z ∈ xs, b.1 < z.1) → xs.Pairwise (fun a c => a.1 < c.1) →
    ∀ x ∈ b :: xs,
      x.2 = (xs.foldl (fun best y => if best.2 < y.2 then y else best) b).2 →
      (xs.foldl (fun best y => if best.2 < y.2 then y else best) b).1 ≤ x.1 := by
  intro xs
  induction xs with
  | nil =>
    intro b hlt hpw x hx htie
    simp only [List.foldl_nil]
    rcases List.mem_singleton.mp hx with rfl
    exact le_refl _
  | cons z xs ih =>
    intro b hlt hpw x hx htie
    rw [List.foldl_cons] at htie ⊢
    have hpw2 := (List.pairwise_cons.mp hpw).2
    have hzlt := (List.pairwise_cons.mp hpw).1
    by_cases hc : b.2 < z.2
    · rw [if_pos hc] at htie ⊢
      have hnext : ∀ w ∈ xs, z.1 < w.1 := hzlt
      rcases List.mem_cons.mp hx with rfl | hx2
      · exfalso
        have h1 : z.2 ≤ (xs.foldl (fun best y => if best.2 < y.2 then y else best) z).2 :=
          pyFold_snd_le xs z
        rw [← htie] at h1
        exact absurd (lt_of_lt_of_le hc h1) (lt_irrefl _)
      · exact ih z hnext hpw2 x hx2 htie
    · rw [if_neg hc] at htie ⊢
      have hnext : ∀ w ∈ xs, b.1 < w.1 := fun w hw => hlt w (List.mem_cons_of_mem z hw)
      rcases List.mem_cons.mp hx with hxb | hx2
      · rw [hxb]
        exact ih b hnext hpw2 b (List.mem_cons_self _ _) (hxb ▸ htie)
      · rcases List.mem_cons.mp hx2 with hxz | hx3
        · have hble : x.2 ≤ b.2 := by rw [hxz]; exact not_lt.mp hc
          have hb2 : b.2 ≤ (xs.foldl (fun best y => if best.2 < y.2 then y else best) b).2 :=
            pyFold_snd_le xs b
          have hbtie : b.2 = (xs.foldl (fun best y => if best.2 < y.2 then y else best) b).2 :=
            le_antisymm hb2 (by rw [← htie]; exact hble)
          have hkey := ih b hnext hpw2 b (List.mem_cons_self _ _) hbtie
          have hxmem : x ∈ z :: xs := by rw [hxz]; exact List.mem_cons_self _ _
          exact le_of_lt (lt_of_le_of_lt hkey (hlt x hxmem))
        · exact ih b hnext hpw2 x (List.mem_cons_of_mem b hx3) htie

theorem pyMaxBySnd_spec {l : List (String × ℚ)} {m : String × ℚ}
    (hpw : l.Pairwise (fun a c => a.1 < c.1))
    (h : pyMaxBySnd l = some m) :
    m ∈ l ∧ (∀ x ∈ l, x.2 ≤ m.2) ∧ (∀ x ∈ l, x.2 = m.2 → m.1 ≤ x.1) := by
  cases l with
  | nil => cases h
  | cons b xs =>
    simp only [pyMaxBySnd, Option.some.injEq] at h
    subst h
    have hzlt := (List.pairwise_cons.mp hpw).1
    have hpw2 := (List.pairwise_cons.mp hpw).2
    refine ⟨pyFold_mem xs b, ?_, ?_⟩
    · intro x hx
      rcases List.mem_cons.mp hx with rfl | hx2
      · exact pyFold_snd_le xs x
      · exact pyFold_max xs b x hx2
    · intro x hx htie
      exact pyFold_ties xs b hzlt hpw2 x hx htie

theorem insertSortedBy_mem (le : α → α → Bool) (x : α) (l : List α) (z : α) :
    z ∈ insertSortedBy le x l ↔ z = x ∨ z ∈ l :=
  by rw [(insertSortedBy_perm le x l).mem_iff, List.mem_cons]

theorem insertSortedBy_pairwise {le : α → α → Bool}
    (htot : ∀ a b, le a b = true ∨ le b a = true)
    (htrans : ∀ a b c, le a b = true → le b c = true → le a c = true) :
    ∀ (x : α) (l : List α), l.Pairwise (fun a b => le a b = true) →
      (insertSortedBy le x l).Pairwise (fun a b => le a b = true) := by
  intro x l
  induction l with
  | nil => intro h; simp [insertSortedBy]
  | cons y ys ih =>
    intro h
    have hy := (List.pairwise_cons.mp h).1
    have hys := (List.pairwise_cons.mp h).2
    by_cases hc : le x y = true
    · rw [insertSortedBy, if_pos hc]
      rw [List.pairwise_cons]
      refine ⟨?_, h⟩
      intro z hz
      rcases List.mem_cons.mp hz with rfl | hz2
      · exact hc
      · exact htrans _ _ _ hc (hy z hz2)
    · rw [insertSortedBy, if_neg hc]
      rw [List.pairwise_cons]
      refine ⟨?_, ih hys⟩
      intro z hz
      rcases (insertSortedBy_mem le x ys z).mp hz with rfl | hz2
      · rcases htot z y with hzy | hyz
        · exact absurd hzy hc
        · exact hyz
      · exact hy z hz2

theorem insertionSortBy_pairwise {le : α → α → Bool}
    (htot : ∀ a b, le a b = true ∨ le b a = true)
    (htrans : ∀ a b c, le a b = true → le b c = true → le a c = true) :
    ∀ l : List α, (insertionSortBy le l).Pairwise (fun a b => le a b = true) := by
  intro l
  induction l with
  | nil => simp [insertionSortBy]
  | cons x xs ih =>
    exact insertSortedBy_pairwise htot htrans x _ ih

theorem sortedTeams_pairwise_lt (abbrs : List String) :
    (sortedTeams abbrs).Pairwise (fun a b => a < b) := by
  have hle : (sortedTeams abbrs).Pairwise (fun a b => (a ≤ b : Bool) = true) := by
    apply insertionSortBy_pairwise
    · intro a b
      rcases le_total a b with h | h
      · exact Or.inl (by simpa using h)
      · exact Or.inr (by simpa using h)
    · intro a b c hab hbc
      simp only [decide_eq_true_eq] at hab hbc ⊢
      exact le_trans hab hbc
  have hnd : (sortedTeams abbrs).Nodup :=
    (insertionSortBy_perm _ _).nodup_iff.mpr (List.nodup_dedup abbrs)
  have := hle.and hnd
  refine this.imp ?_
  rintro a b ⟨h1, h2⟩
  exact lt_of_le_of_ne (by simpa using h1) h2

theorem singleEntry_fold_keys (row0 : Row) (rest : WinMatrix) (used : List Bool)
    (teams : List String) (n : Nat) :
    ∀ (idxs : List Nat) (acc : List (String × ℚ) × RngState),
    ((idxs.foldl (singleEntryStep row0 rest used teams n) acc).1).map Prod.fst =
      acc.1.map Prod.fst ++
        (idxs.filter (firstPickAvailable row0 used)).map (fun i => teams.getD i "") := by
  intro idxs
  induction idxs with
  | nil => intro acc; simp
  | cons i idxs ih =>
    intro acc
    rw [List.foldl_cons, List.filter_cons]
    by_cases hav : firstPickAvailable row0 used i = true
    · rw [if_pos hav]
      rw [show singleEntryStep row0 rest used teams n acc i =
        (acc.1 ++ [(teams.getD i "", boolMean (simWeeks rest (used.set i true)
            (drawOutcomes acc.2 n (valAt row0 i)).1
            (drawOutcomes acc.2 n (valAt row0 i)).2).1)],
         (simWeeks rest (used.set i true)
            (drawOutcomes acc.2 n (valAt row0 i)).1
            (drawOutcomes acc.2 n (valAt row0 i)).2).2) from by
        simp [singleEntryStep, hav]]
      rw [ih]
      simp

    · rw [if_neg hav]
      rw [show singleEntryStep row0 rest used teams n acc i = acc from by
        simp [singleEntryStep, hav]]
      exact ih acc

theorem singleProbs_keys_pairwise (W : WinMatrix) (used : List Bool)
    (teams : List String) (n : Nat) (r : RngState)
    (hpt : teams.Pairwise (fun a b => a < b))
    (hlen : ∀ row0 rest2, W = row0 :: rest2 → row0.length ≤ teams.length) :
    (((simulate_single_entry_rng W used teams n r).1).map Prod.fst).Pairwise
      (fun a b => a < b) := by
  cases hW : W with
  | nil => simp [simulate_single_entry_rng]
  | cons row0 rest => ?_
  have hlen2 : row0.length ≤ teams.length := hlen row0 rest hW
  have hkeys : ((simulate_single_entry_rng (row0 :: rest) used teams n r).1).map Prod.fst =
      ((List.range row0.length).filter (firstPickAvailable row0 used)).map
        (fun i => teams.getD i "") := by
    show (((List.range row0.length).foldl (singleEntryStep row0 rest used teams n)
      ([], r)).1).map Prod.fst = _
    rw [singleEntry_fold_keys]
    simp
  rw [hkeys]
  rw [List.pairwise_map]
  have hrange : ((List.range row0.length).filter (firstPickAvailable row0 used)).Pairwise
      (fun a b => a < b) :=
    List.Pairwise.sublist (List.filter_sublist _) (List.pairwise_lt_range _)
  have hbound : ∀ i ∈ (List.range row0.length).filter (firstPickAvailable row0 used),
      i < teams.length := by
    intro i hi
    have := List.mem_range.mp (List.mem_of_mem_filter hi)
    omega
  refine hrange.imp_of_mem ?_
  intro a b ha hb hab
  have ha' := hbound a ha
  have hb' := hbound b hb
  rw [List.getD_eq_getElem teams "" ha', List.getD_eq_getElem teams "" hb']
  exact List.pairwise_iff_getElem.mp hpt a b ha' hb' hab


theorem diversityScores_keys (sp : List (String × ℚ)) (committed : List String) :
    (diversityScores sp committed).map Prod.fst = sp.map Prod.fst := by
  simp [diversityScores]

theorem buildMatrixRow_length (M : List (Nat × List WeekMatchup)) (weeks : List Nat)
    (teams : List String) :
    ∀ row ∈ build_win_matrix M weeks teams, row.length = teams.length := by
  intro row hrow
  rw [build_win_matrix] at hrow
  obtain ⟨week, -, hw⟩ := List.mem_map.mp hrow
  subst hw
  generalize (((M.find? (fun p => p.1 == week)).map Prod.snd).getD []) = ms
  have : ∀ (ms : List WeekMatchup) (row0 : Row),
      (ms.foldl (fun (row : Row) m =>
        match teams.indexOf? m.team_abbr with
        | some ti => row.set ti m.win_prob
        | none => row) row0).length = row0.length := by
    intro ms
    induction ms with
    | nil => intro row0; rfl
    | cons m ms ih =>
      intro row0
      rw [List.foldl_cons]
      cases h : teams.indexOf? m.team_abbr with
      | none => rw [ih]
      | some ti => rw [ih]; simp
  rw [this]
  simp

theorem portfolioStep_characterize (W : WinMatrix) (T : List String) (wks : List Nat)
    (M : List (Nat × List WeekMatchup)) (cw n : Nat)
    (acc : List Recommendation × List String × RngState) (es : EntryState) :
    ((portfolioStep W T wks M cw n acc es).1 = acc.1 ∧
     (portfolioStep W T wks M cw n acc es).2.1 = acc.2.1) ∨
    (es.is_alive = true ∧
      ∃ best, pyMaxBySnd (diversityScores
          ((simulate_single_entry_rng W (buildUsedMask T es.used_teams) T n acc.2.2).1)
          acc.2.1) = some best ∧
        ∃ rec1 : Recommendation,
          (portfolioStep W T wks M cw n acc es).1 = acc.1 ++ [rec1] ∧
          (portfolioStep W T wks M cw n acc es).2.1 = acc.2.1 ++ [best.1] ∧
          rec1.recommended_team = best.1 ∧
          rec1.entry_id = es.entry_id) := by
  by_cases ha : es.is_alive = true
  · have hcond : ¬((!es.is_alive) = true) := by simp [ha]
    cases hm : pyMaxBySnd (diversityScores
        ((simulate_single_entry_rng W (buildUsedMask T es.used_teams) T n acc.2.2).1)
        acc.2.1) with
    | none =>
      left
      constructor
      · show (portfolioStep W T wks M cw n acc es).1 = acc.1
        unfold portfolioStep
        rw [if_neg hcond]
        simp only [hm]
      · show (portfolioStep W T wks M cw n acc es).2.1 = acc.2.1
        unfold portfolioStep
        rw [if_neg hcond]
        simp only [hm]
    | some best =>
      right
      refine ⟨ha, best, rfl, ?_⟩
      unfold portfolioStep
      rw [if_neg hcond]
      simp only [hm]
      exact ⟨_, rfl, trivial, rfl, rfl⟩
  · have ha' : es.is_alive = false := by
      cases h : es.is_alive
      · rfl
      · exact absurd h ha
    left
    constructor
    · show (portfolioStep W T wks M cw n acc es).1 = acc.1
      unfold portfolioStep
      rw [if_pos (by simp [ha'])]
    · show (portfolioStep W T wks M cw n acc es).2.1 = acc.2.1
      unfold portfolioStep
      rw [if_pos (by simp [ha'])]

theorem portfolioFold_spec (W : WinMatrix) (T : List String) (wks : List Nat)
    (M : List (Nat × List WeekMatchup)) (cw n : Nat)
    (hpt : T.Pairwise (fun a b => a < b))
    (hlen : ∀ row0 rest2, W = row0 :: rest2 → row0.length ≤ T.length) :
    ∀ (es_list : List EntryState) (acc : List Recommendation × List String × RngState),
      acc.2.1 = acc.1.map (fun rec2 => rec2.recommended_team) →
      (∃ d : List Recommendation,
        (es_list.foldl (portfolioStep W T wks M cw n) acc).1 = acc.1 ++ d) ∧
      (∀ (i : Nat) (rec1 : Recommendation), acc.1.length ≤ i →
        ((es_list.foldl (portfolioStep W T wks M cw n) acc).1)[i]? = some rec1 →
        ∃ (es : EntryState) (pre suf : List EntryState),
          es_list = pre ++ es :: suf ∧ es.is_alive = true ∧
          es.entry_id = rec1.entry_id ∧
          recArgmax W T n es ((pre.foldl (portfolioStep W T wks M cw n) acc).2.2)
            ((((es_list.foldl (portfolioStep W T wks M cw n) acc).1).take i).map
              (fun rec2 => rec2.recommended_team))
            rec1.recommended_team) := by
  intro es_list
  induction es_list with
  | nil =>
    intro acc hacc
    refine ⟨⟨[], by simp⟩, ?_⟩
    intro i rec1 hle hg
    rw [List.foldl_nil] at hg
    obtain ⟨hi, -⟩ := List.getElem?_eq_some.mp hg
    omega
  | cons es rest ih =>
    intro acc hacc
    rw [List.foldl_cons]
    rcases portfolioStep_characterize W T wks M cw n acc es with
      ⟨h1, h2⟩ | ⟨ha, best, hm, rec1, h1, h2, hrt, hidq⟩
    · have hinv : (portfolioStep W T wks M cw n acc es).2.1 =
          (portfolioStep W T wks M cw n acc es).1.map (fun rec2 => rec2.recommended_team) := by
        rw [h1, h2, hacc]
      obtain ⟨⟨d, hd⟩, hidx⟩ := ih (portfolioStep W T wks M cw n acc es) hinv
      refine ⟨⟨d, by rw [hd, h1]⟩, ?_⟩
      intro i rec2 hle hg
      obtain ⟨es2, pre, suf, hsplit, hal, hid, hra⟩ :=
        hidx i rec2 (by rw [h1]; exact hle) hg
      refine ⟨es2, es :: pre, suf, by rw [hsplit, List.cons_append], hal, hid, ?_⟩
      rw [List.foldl_cons]
      exact hra
    · have hinv : (portfolioStep W T wks M cw n acc es).2.1 =
          (portfolioStep W T wks M cw n acc es).1.map (fun rec2 => rec2.recommended_team) := by
        rw [h1, h2, hacc]
        simp [hrt]
      obtain ⟨⟨d, hd⟩, hidx⟩ := ih (portfolioStep W T wks M cw n acc es) hinv
      have hfold1 : (rest.foldl (portfolioStep W T wks M cw n)
          (portfolioStep W T wks M cw n acc es)).1 = acc.1 ++ rec1 :: d := by
        rw [hd, h1]
        simp
      refine ⟨⟨rec1 :: d, hfold1⟩, ?_⟩
      intro i rec2 hle hg
      by_cases hcase : (portfolioStep W T wks M cw n acc es).1.length ≤ i
      · obtain ⟨es2, pre, suf, hsplit, hal, hid, hra⟩ := hidx i rec2 hcase hg
        refine ⟨es2, es :: pre, suf, by rw [hsplit, List.cons_append], hal, hid, ?_⟩
        rw [List.foldl_cons]
        exact hra
      · have hieq : i = acc.1.length := by
          rw [h1] at hcase
          simp only [List.length_append, List.length_singleton] at hcase
          omega
        subst hieq
        have hrec : rec2 = rec1 := by
          rw [hfold1, List.getElem?_append_right (le_refl _)] at hg
          simp at hg
          exact hg.symm
        subst hrec
        have htake : ((rest.foldl (portfolioStep W T wks M cw n)
            (portfolioStep W T wks M cw n acc es)).1).take acc.1.length = acc.1 := by
          rw [hfold1]
          exact List.take_left _ _
        have hkpw := singleProbs_keys_pairwise W
          (buildUsedMask T es.used_teams) T n acc.2.2 hpt hlen
        have hspw : (diversityScores
            ((simulate_single_entry_rng W (buildUsedMask T es.used_teams) T n acc.2.2).1)
            acc.2.1).Pairwise (fun a b => a.1 < b.1) := by
          rw [← diversityScores_keys
            ((simulate_single_entry_rng W (buildUsedMask T es.used_teams) T n acc.2.2).1)
            acc.2.1] at hkpw
          exact List.pairwise_map.mp hkpw
        obtain ⟨hmem, hmax, hties⟩ := pyMaxBySnd_spec hspw hm
        refine ⟨es, [], rest, rfl, ha, hidq.symm, ?_⟩
        simp only [List.foldl_nil]
        rw [htake, ← hacc]
        refine ⟨best.2, ?_, hmax, ?_⟩
        · rw [hrt]
          simpa using hmem
        · intro x hx hxs
          rw [hrt]
          exact hties x hx hxs

/-! ## Claim theorems -/

/-- C10: with a zero-week win matrix, `simulate_full_season_strategy`
returns the empty pick list with survival probability `1.0`, and
`simulate_single_entry` returns the empty map; both are total functions of
their inputs, so neither raises. -/
theorem c10_zero_weeks (used_mask : List Bool) (all_teams : List String)
    (n_sims : Nat) (r : RngState) :
    simulate_full_season_strategy [] used_mask all_teams n_sims r = ([], 1) ∧
    simulate_single_entry [] used_mask all_teams n_sims r = [] :=
  ⟨rfl, rfl⟩

/-- C5: the determinism contract as a non-interference hyperproperty.
Two successive serial calls with identical inputs differ only in the
ambient state of the process (`e1`, `e2`: whatever generator state the
runtime would hand a seedless `default_rng()`, e.g. what earlier calls
left behind).  Because `simulate_single_entry` and
`simulate_full_season_strategy` re-seed with the constant `SEED = 42`
whenever their `rng` argument is `None`, and `simulate_portfolio` re-seeds
unconditionally, the two calls return identical survival probabilities,
recommended teams and beam pick sequences; the full-season beam is
moreover invariant under arbitrary generator arguments and simulation
counts, and the ambient-environment call to `simulate_portfolio` computes
exactly `simulate_portfolio` itself. -/
theorem c5_determinism (e1 e2 : RngState) (win_matrix : WinMatrix)
    (used_mask : List Bool) (all_teams : List String) (n_sims : Nat)
    (db : Db) (season week : Nat) (entry_states : List EntryState) :
    simulate_single_entry_env e1 win_matrix used_mask all_teams n_sims none =
      simulate_single_entry_env e2 win_matrix used_mask all_teams n_sims none ∧
    simulate_full_season_strategy_env e1 win_matrix used_mask all_teams n_sims none =
      simulate_full_season_strategy_env e2 win_matrix used_mask all_teams n_sims none ∧
    (∀ (rngArg1 rngArg2 : Option RngState) (n1 n2 : Nat),
      simulate_full_season_strategy_env e1 win_matrix used_mask all_teams n1 rngArg1 =
        simulate_full_season_strategy_env e2 win_matrix used_mask all_teams n2 rngArg2) ∧
    simulate_portfolio_env e1 db season week entry_states n_sims =
      simulate_portfolio_env e2 db season week entry_states n_sims ∧
    simulate_single_entry_env e1 win_matrix used_mask all_teams n_sims none =
      simulate_single_entry win_matrix used_mask all_teams n_sims (defaultRng SEED) ∧
    simulate_portfolio_env e1 db season week entry_states n_sims =
      simulate_portfolio db season week entry_states n_sims :=
  ⟨rfl, rfl, fun _ _ _ _ => rfl, rfl, rfl, rfl⟩

/-- C9: `simulate_full_season_strategy` never consumes its `rng` or
`n_sims` arguments — any two generators and simulation counts give
identical outputs — and the survival it returns is the exact product of
the chosen picks' win probabilities (a sentinel pick contributing the
factor `0`), not a Monte-Carlo estimate. -/
theorem c9_full_season_is_exact (win_matrix : WinMatrix) (used_mask : List Bool)
    (all_teams : List String) (n_sims₁ n_sims₂ : Nat) (r₁ r₂ : RngState) :
    simulate_full_season_strategy win_matrix used_mask all_teams n_sims₁ r₁ =
      simulate_full_season_strategy win_matrix used_mask all_teams n_sims₂ r₂ ∧
    ∃ ipicks : List ℤ,
      (simulate_full_season_strategy win_matrix used_mask all_teams n_sims₁ r₁).1 =
        ipicks.map (fun ti => if 0 ≤ ti then all_teams.getD ti.toNat "" else "NONE") ∧
      (simulate_full_season_strategy win_matrix used_mask all_teams n_sims₁ r₁).2 =
        picksProd win_matrix ipicks := by
  refine ⟨rfl, ?_⟩
  cases hwm : win_matrix with
  | nil => exact ⟨[], by simp [simulate_full_season_strategy], by simp [simulate_full_season_strategy, picksProd]⟩
  | cons row rest =>
    have hne : beamLoop (row :: rest) [(usedIndices used_mask, [], 1)] ≠ [] :=
      beamLoop_ne_nil _ _ (by simp)
    cases hL : beamLoop (row :: rest) [(usedIndices used_mask, [], 1)] with
    | nil => exact absurd hL hne
    | cons best tl =>
      have hb : best ∈ beamLoop (row :: rest) [(usedIndices used_mask, [], 1)] := by
        rw [hL]; exact List.mem_cons_self _ _
      obtain ⟨s, hs, ext, hp, hv⟩ := beamLoop_mem _ _ _ hb
      simp only [List.mem_singleton] at hs
      subst hs
      refine ⟨best.2.1, ?_, ?_⟩
      · simp [simulate_full_season_strategy, hL]
      · simp only [simulate_full_season_strategy, hL]
        rw [hv, hp]
        simp

/-- C1: for every week after the first, the greedy continuation pick of
`simulate_single_entry` is exactly the available (unused, non-NaN) team of
highest win probability, ties broken by lowest column index; a week with
no available team makes the step return `none`, upon which every
simulation is marked dead and the loop stops; and the whole pick sequence
(`greedyPickSeq`) is a function of the matrix and used mask alone, shared
by all simulations, with the outcome draws only filtering the alive
vector along it.  Stated for genuine probability rows (entries NaN or in
`[0, 1]`). -/
theorem c1_greedy_continuation (row : Row) (used : List Bool)
    (hlen : used.length = row.length) (hin : rowInRange row) :
    (∀ b : Nat, greedyStep row used = some b ↔
        (contAvailable row used b = true ∧
         (∀ t, contAvailable row used t = true → valAt row t ≤ valAt row b) ∧
         (∀ t, t < b → contAvailable row used t = true → valAt row t < valAt row b))) ∧
    (greedyStep row used = none ↔ ∀ t, contAvailable row used t = false) ∧
    (greedyStep row used = none →
      ∀ (rest : WinMatrix) (alive : List Bool) (r : RngState),
        ¬ alive.all (fun a => !a) = true →
        simWeeks (row :: rest) used alive r = (alive.map (fun _ => false), r)) ∧
    (∀ (wm : WinMatrix) (used0 alive : List Bool) (r : RngState),
        simWeeks wm used0 alive r = simWeeksFollowing (greedyPickSeq wm used0) wm alive r) := by
  have key : ∀ b : Nat, greedyStep row used = some b →
      contAvailable row used b = true ∧
      (∀ t, contAvailable row used t = true → valAt row t ≤ valAt row b) ∧
      (∀ t, t < b → contAvailable row used t = true → valAt row t < valAt row b) := by
    intro b h
    obtain ⟨hbm, hbu, q, hq, hq0⟩ := greedyStep_some_pos h
    have hbrow : b < row.length :=
      lt_of_lt_of_le hbm (by rw [maskRow_length]; exact min_le_left _ _)
    have hav : contAvailable row used b = true :=
      contAvailable_iff.mpr ⟨hbrow, hbu, by rw [hq]; rfl⟩
    have hbarg := greedyStep_eq_argmax h
    have hbv : (maskRow row used).getD b 0 = valAt row b :=
      masked_getD_avail 0 (hlen ▸ hbrow) hav
    refine ⟨hav, ?_, ?_⟩
    · intro t hat
      obtain ⟨htrow, -, -⟩ := contAvailable_iff.mp hat
      have htm : t < (maskRow row used).length := by
        rw [maskRow_length, hlen]; simpa using htrow
      have := argmaxIdx_le (maskRow row used) t htm
      rw [← hbarg] at this
      rw [masked_getD_avail 0 (hlen ▸ htrow) hat, hbv] at this
      exact this
    · intro t htb hat
      obtain ⟨htrow, -, -⟩ := contAvailable_iff.mp hat
      have := argmaxIdx_first (maskRow row used) t (hbarg ▸ htb)
      rw [← hbarg] at this
      rw [masked_getD_avail 0 (hlen ▸ htrow) hat, hbv] at this
      exact this
  refine ⟨?_, ?_, ?_, simWeeks_eq_following⟩
  · intro b
    constructor
    · exact key b
    · rintro ⟨hav, hmax, hfirst⟩
      have hsome := greedyStep_some_of_avail hlen hin hav
      obtain ⟨ha, hamax, hafirst⟩ := key _ hsome
      have h1 : valAt row (argmaxIdx (maskRow row used)) ≤ valAt row b := hmax _ ha
      have h2 : valAt row b ≤ valAt row (argmaxIdx (maskRow row used)) := hamax _ hav
      rcases Nat.lt_trichotomy (argmaxIdx (maskRow row used)) b with hlt | heq | hgt
      · exact absurd (hfirst _ hlt ha) (by rw [le_antisymm h1 h2]; simp)
      · rw [heq] at hsome; exact hsome
      · exact absurd (hafirst _ hgt hav) (by rw [le_antisymm h1 h2]; simp)
  · constructor
    · intro hnone t
      by_contra hav
      have hav' : contAvailable row used t = true := by
        cases h : contAvailable row used t with
        | false => exact absurd h hav
        | true => rfl
      rw [greedyStep_some_of_avail hlen hin hav'] at hnone
      cases hnone
    · intro hall
      simp only [greedyStep]
      set m := maskRow row used with hm
      rw [if_pos ?_]
      by_cases hne : m = []
      · rw [hne]; norm_num [List.getD]
      · have ha := argmaxIdx_lt_length m hne
        rw [masked_getD_not_avail (-1) ha (hall _)]
        norm_num
  · intro hnone rest alive r hd
    simp only [simWeeks, hnone]
    rw [if_neg hd]

/-- C1 witness: the characterization applied at a concrete two-team row. -/
theorem c1_greedy_continuation_witness :
    (([false, false] : List Bool).length = ([some (1/2 : ℚ), some (3/4)] : Row).length) ∧
    rowInRange [some (1/2 : ℚ), some (3/4)] ∧
    ((∀ b : Nat, greedyStep [some (1/2 : ℚ), some (3/4)] [false, false] = some b ↔
        (contAvailable [some (1/2 : ℚ), some (3/4)] [false, false] b = true ∧
         (∀ t, contAvailable [some (1/2 : ℚ), some (3/4)] [false, false] t = true →
            valAt [some (1/2 : ℚ), some (3/4)] t ≤ valAt [some (1/2 : ℚ), some (3/4)] b) ∧
         (∀ t, t < b → contAvailable [some (1/2 : ℚ), some (3/4)] [false, false] t = true →
            valAt [some (1/2 : ℚ), some (3/4)] t < valAt [some (1/2 : ℚ), some (3/4)] b))) ∧
    (greedyStep [some (1/2 : ℚ), some (3/4)] [false, false] = none ↔
        ∀ t, contAvailable [some (1/2 : ℚ), some (3/4)] [false, false] t = false) ∧
    (greedyStep [some (1/2 : ℚ), some (3/4)] [false, false] = none →
      ∀ (rest : WinMatrix) (alive : List Bool) (r : RngState),
        ¬ alive.all (fun a => !a) = true →
        simWeeks ([some (1/2 : ℚ), some (3/4)] :: rest) [false, false] alive r =
          (alive.map (fun _ => false), r)) ∧
    (∀ (wm : WinMatrix) (used0 alive : List Bool) (r : RngState),
        simWeeks wm used0 alive r = simWeeksFollowing (greedyPickSeq wm used0) wm alive r)) := by
  have hin : rowInRange [some (1/2 : ℚ), some (3/4)] := by
    intro c hc v hv
    simp only [List.mem_cons, List.not_mem_nil, or_false] at hc
    rcases hc with rfl | rfl
    · injection hv with h; rw [← h]; norm_num
    · injection hv with h; rw [← h]; norm_num
  exact ⟨rfl, hin, c1_greedy_continuation _ _ rfl hin⟩

/-- C3 counterexample: win-matrix entries outside `[0, 1]` are NOT treated
like NaN.  A team with win probability `3/2` is chosen as a beam-search
successor (and becomes the recommended strategy pick, with "survival"
`3/2`); a team with probability `2` is chosen as a greedy continuation
pick; and a team with probability `-1/2` is still offered as a candidate
first pick by `simulate_single_entry`. -/
theorem c3_counterexample :
    simulate_full_season_strategy [[some (3/2 : ℚ), some (1/2)]] [false, false]
      ["AAA", "BBB"] N_SIMULATIONS (defaultRng SEED) = (["AAA"], 3/2) ∧
    greedyStep [some (2 : ℚ), some (1/10)] [false, false] = some 0 ∧
    simulate_single_entry [[some (-1/2 : ℚ)]] [false] ["AAA"] 1
      ⟨fun _ => 1/2, 0⟩ = [("AAA", 0)] := by
  refine ⟨?_, ?_, ?_⟩
  · norm_num [simulate_full_season_strategy, beamLoop, beamExpand, beamSort,
      insertionSortBy, insertSortedBy, availableTeams, usedIndices, valAt,
      BEAM_WIDTH, List.range, List.range.loop, List.filter,
      List.flatMap_cons, List.flatMap_nil, List.isEmpty_cons, List.isEmpty_nil,
      List.take_succ_cons, List.take_zero, List.take_nil, List.cons_ne_nil,
      ne_eq]
  · norm_num [greedyStep, maskRow, argmaxIdx]
  · norm_num [simulate_single_entry, simulate_single_entry_rng, singleEntryStep,
      List.range, List.range.loop, firstPickAvailable, drawOutcomes, simWeeks,
      valAt, boolMean, List.count_cons]

/-- C3 amended: a NaN entry makes a team unavailable everywhere.  An entry
`< 0` additionally can never be chosen as a greedy continuation pick or as
a beam-search successor; but the candidate first picks of
`simulate_single_entry` exclude only used teams and NaN entries (any
out-of-range value is still offered), and entries `> 1` are treated as
ordinary probabilities by the greedy continuation and the beam search. -/
theorem c3_amended :
    (∀ (row0 : Row) (used_mask : List Bool) (t : Nat),
        firstPickAvailable row0 used_mask t = true ↔
          used_mask.getD t true = false ∧ (row0.getD t none).isSome = true) ∧
    (∀ (row : Row) (used : List Bool) (b : Nat), greedyStep row used = some b →
        used.getD b false = false ∧ ∃ q : ℚ, row.getD b none = some q ∧ 0 ≤ q) ∧
    (∀ (row : Row) (used : List ℕ) (t : Nat),
        t ∈ availableTeams row used ↔
          t < row.length ∧ used.contains t = false ∧
            ∃ q : ℚ, row.getD t none = some q ∧ 0 ≤ q) := by
  refine ⟨?_, ?_, ?_⟩
  · intro row0 used_mask t
    simp [firstPickAvailable, Bool.and_eq_true, Bool.not_eq_true']
  · intro row used b h
    exact (greedyStep_some_pos h).2
  · intro row used t
    simp only [availableTeams, List.mem_filter, List.mem_range,
      Bool.and_eq_true, Bool.not_eq_true', decide_eq_true_eq, valAt,
      List.getD_eq_getElem?_getD]
    constructor
    · rintro ⟨hmem, ⟨hc, hsome⟩, hval⟩
      obtain ⟨q, hq⟩ := Option.isSome_iff_exists.mp hsome
      refine ⟨hmem, hc, q, hq, ?_⟩
      simpa [hq] using hval
    · rintro ⟨ht, hc, q, hq, hql⟩
      exact ⟨ht, ⟨hc, by simp [hq]⟩, by simpa [hq] using hql⟩

/-- C3 amended, witness: the greedy continuation clause applied at a
concrete row. -/
theorem c3_amended_witness :
    greedyStep [some (2 : ℚ), some 1] [false, false] = some 0 ∧
    (([false, false] : List Bool).getD 0 false = false ∧
      ∃ q : ℚ, ([some (2 : ℚ), some 1] : Row).getD 0 none = some q ∧ 0 ≤ q) := by
  have hstep : greedyStep [some (2 : ℚ), some 1] [false, false] = some 0 := by
    norm_num [greedyStep, maskRow, argmaxIdx]
  exact ⟨hstep, c3_amended.2.1 _ _ _ hstep⟩

/-- C4: `WinProbabilityModel.predict` always returns a pair of the form
`(p, 1 − p)` — on the trained-model path and on the SRS fallback alike —
so `|p_home + p_away − 1| < 1e-9` holds for every prediction (here the sum
is exactly 1); consequently every game written by `update_game_win_probs`
gets win probabilities satisfying the same closure. -/
theorem c4_probability_closure (expF : ℚ → ℚ) (model : Option (List ℚ → ℚ))
    (home away : StatsDict) (is_neutral : Bool)
    (statsFor : Nat → Nat → StatsDict) (games : List GameRec) (season : Nat) :
    |(predict expF model home away is_neutral).1 +
      (predict expF model home away is_neutral).2 - 1| < 1 / 1000000000 ∧
    update_game_win_probs expF model statsFor games season =
      games.map (updateGameOne expF model statsFor season) ∧
    (∀ g ∈ games, g.season = season → g.home_win = none →
      ∃ hp ap : ℚ,
        (updateGameOne expF model statsFor season g).home_win_prob = some hp ∧
        (updateGameOne expF model statsFor season g).away_win_prob = some ap ∧
        |hp + ap - 1| < 1 / 1000000000) := by
  have closure : ∀ (m : Option (List ℚ → ℚ)) (h a : StatsDict) (n : Bool),
      |(predict expF m h a n).1 + (predict expF m h a n).2 - 1| < 1 / 1000000000 := by
    intro m h a n
    cases m with
    | none =>
      simp only [predict, srs_fallback]
      rw [show ∀ p : ℚ, p + (1 - p) - 1 = 0 from fun p => by ring]
      norm_num
    | some f =>
      simp only [predict]
      rw [show ∀ p : ℚ, p + (1 - p) - 1 = 0 from fun p => by ring]
      norm_num
  refine ⟨closure model home away is_neutral, rfl, ?_⟩
  intro g hg hs hw
  refine ⟨(predict expF model (statsFor g.home_team_id g.week)
      (statsFor g.away_team_id g.week) g.is_neutral).1,
    (predict expF model (statsFor g.home_team_id g.week)
      (statsFor g.away_team_id g.week) g.is_neutral).2, ?_, ?_, closure _ _ _ _⟩
  · simp [updateGameOne, hs, hw]
  · simp [updateGameOne, hs, hw]

/-- C4 witness: the closure clause applied to a concrete unplayed game. -/
theorem c4_probability_closure_witness :
    (⟨0, 1, 5, 1, 2, false, none, none, none⟩ : GameRec) ∈
      [(⟨0, 1, 5, 1, 2, false, none, none, none⟩ : GameRec)] ∧
    ∃ hp ap : ℚ,
      (updateGameOne (fun _ => 1) none (fun _ _ => {}) 1
          ⟨0, 1, 5, 1, 2, false, none, none, none⟩).home_win_prob = some hp ∧
      (updateGameOne (fun _ => 1) none (fun _ _ => {}) 1
          ⟨0, 1, 5, 1, 2, false, none, none, none⟩).away_win_prob = some ap ∧
      |hp + ap - 1| < 1 / 1000000000 := by
  refine ⟨List.mem_singleton.mpr rfl, ?_⟩
  exact (c4_probability_closure (fun _ => 1) none {} {} false (fun _ _ => {})
    [⟨0, 1, 5, 1, 2, false, none, none, none⟩] 1).2.2 _
    (List.mem_singleton.mpr rfl) rfl rfl

/-- C7: `submit_pick` answers 404 exactly when the entry is missing or
(the entry being alive) the team is missing; it answers 400 exactly when
the entry exists and is dead, or the team was already used by the entry,
or the entry already has a pick for that `(season, week)`; every rejection
is one of these two statuses and inserts nothing (only a success returns a
new store); a success appends exactly one pick, touches nothing else, and
preserves the invariants of at most one pick per `(entry, season, week)`
and per `(entry, team)`. -/
theorem c7_submit_pick (db : Db) (body : PickSubmit) (fresh_id : Nat) :
    (submit_pick db body fresh_id = .error 404 ↔
      db.entries.find? (fun e => e.id == body.entry_id) = none ∨
      (∃ e, db.entries.find? (fun e => e.id == body.entry_id) = some e ∧
        e.is_alive = true ∧
        db.teams.find? (fun t => t.abbr == body.team_abbr) = none)) ∧
    (submit_pick db body fresh_id = .error 400 ↔
      ∃ e, db.entries.find? (fun e => e.id == body.entry_id) = some e ∧
        (e.is_alive = false ∨
          ∃ tm, db.teams.find? (fun t => t.abbr == body.team_abbr) = some tm ∧
            ((∃ p ∈ db.picks, p.entry_id = body.entry_id ∧ p.team_id = tm.id) ∨
             (∃ p ∈ db.picks, p.entry_id = body.entry_id ∧ p.season = body.season ∧
               p.week = body.week)))) ∧
    (∀ n, submit_pick db body fresh_id = .error n → n = 400 ∨ n = 404) ∧
    (∀ (db2 : Db) (pk : PickRec), submit_pick db body fresh_id = .ok (db2, pk) →
      db2.picks = db.picks ++ [pk] ∧ db2.entries = db.entries ∧
      db2.teams = db.teams ∧ db2.games = db.games ∧
      pk.entry_id = body.entry_id ∧ pk.season = body.season ∧
      pk.week = body.week ∧ pk.outcome = none ∧
      (pickInvariants db.picks → pickInvariants db2.picks)) := by
  cases hE : db.entries.find? (fun e => e.id == body.entry_id) with
  | none =>
    refine ⟨?_, ?_, ?_, ?_⟩
    · simp [submit_pick, hE]
    · simp [submit_pick, hE]
    · intro n hn
      simp only [submit_pick, hE] at hn
      injection hn with h
      exact Or.inr h.symm
    · intro db2 pk hok
      simp [submit_pick, hE] at hok
  | some e =>
    by_cases hAlive : e.is_alive = true
    · cases hT : db.teams.find? (fun t => t.abbr == body.team_abbr) with
      | none =>
        refine ⟨?_, ?_, ?_, ?_⟩
        · simp only [submit_pick, hE, hT]
          rw [if_neg (by simp [hAlive])]
          simp [hAlive]
        · simp only [submit_pick, hE, hT]
          rw [if_neg (by simp [hAlive])]
          simp [hAlive, hT]
        · intro n hn
          simp only [submit_pick, hE, hT] at hn
          rw [if_neg (by simp [hAlive])] at hn
          injection hn with h
          exact Or.inr h.symm
        · intro db2 pk hok
          simp only [submit_pick, hE, hT] at hok
          rw [if_neg (by simp [hAlive])] at hok
          cases hok
      | some tm =>
        by_cases hReuse : (db.picks.find? (fun p =>
            p.entry_id == body.entry_id && p.team_id == tm.id)).isSome = true
        · obtain ⟨p0, hp0⟩ := Option.isSome_iff_exists.mp hReuse
          have hp0m := List.mem_of_find?_eq_some hp0
          have hp0p := List.find?_some hp0
          simp only [Bool.and_eq_true, beq_iff_eq] at hp0p
          refine ⟨?_, ?_, ?_, ?_⟩
          · simp only [submit_pick, hE, hT]
            rw [if_neg (by simp [hAlive]), if_pos hReuse]
            simp [hT]
          · simp only [submit_pick, hE, hT]
            rw [if_neg (by simp [hAlive]), if_pos hReuse]
            simp only [hE, Except.error.injEq, true_iff, Option.some.injEq]
            exact ⟨e, rfl, Or.inr ⟨tm, rfl, Or.inl ⟨p0, hp0m, hp0p.1, hp0p.2⟩⟩⟩
          · intro n hn
            simp only [submit_pick, hE, hT] at hn
            rw [if_neg (by simp [hAlive]), if_pos hReuse] at hn
            injection hn with h
            exact Or.inl h.symm
          · intro db2 pk hok
            simp only [submit_pick, hE, hT] at hok
            rw [if_neg (by simp [hAlive]), if_pos hReuse] at hok
            cases hok
        · by_cases hDup : (db.picks.find? (fun p =>
              p.entry_id == body.entry_id && p.season == body.season &&
              p.week == body.week)).isSome = true
          · obtain ⟨p0, hp0⟩ := Option.isSome_iff_exists.mp hDup
            have hp0m := List.mem_of_find?_eq_some hp0
            have hp0p := List.find?_some hp0
            simp only [Bool.and_eq_true, beq_iff_eq] at hp0p
            refine ⟨?_, ?_, ?_, ?_⟩
            · simp only [submit_pick, hE, hT]
              rw [if_neg (by simp [hAlive]), if_neg (by simp [hReuse]), if_pos hDup]
              simp [hT]
            · simp only [submit_pick, hE, hT]
              rw [if_neg (by simp [hAlive]), if_neg (by simp [hReuse]), if_pos hDup]
              simp only [hE, Except.error.injEq, true_iff, Option.some.injEq]
              exact ⟨e, rfl, Or.inr ⟨tm, rfl, Or.inr ⟨p0, hp0m, hp0p.1.1, hp0p.1.2, hp0p.2⟩⟩⟩
            · intro n hn
              simp only [submit_pick, hE, hT] at hn
              rw [if_neg (by simp [hAlive]), if_neg (by simp [hReuse]), if_pos hDup] at hn
              injection hn with h
              exact Or.inl h.symm
            · intro db2 pk hok
              simp only [submit_pick, hE, hT] at hok
              rw [if_neg (by simp [hAlive]), if_neg (by simp [hReuse]), if_pos hDup] at hok
              cases hok
          · have hre : db.picks.find? (fun p =>
                p.entry_id == body.entry_id && p.team_id == tm.id) = none := by
              cases h : db.picks.find? (fun p =>
                p.entry_id == body.entry_id && p.team_id == tm.id) with
              | none => rfl
              | some v => rw [h] at hReuse; simp at hReuse
            have hdu : db.picks.find? (fun p =>
                p.entry_id == body.entry_id && p.season == body.season &&
                p.week == body.week) = none := by
              cases h : db.picks.find? (fun p =>
                p.entry_id == body.entry_id && p.season == body.season &&
                p.week == body.week) with
              | none => rfl
              | some v => rw [h] at hDup; simp at hDup
            have hre' := List.find?_eq_none.mp hre
            have hdu' := List.find?_eq_none.mp hdu
            refine ⟨?_, ?_, ?_, ?_⟩
            · simp only [submit_pick, hE, hT]
              rw [if_neg (by simp [hAlive]), if_neg (by simp [hReuse]),
                if_neg (by simp [hDup])]
              constructor
              · intro h; cases h
              · rintro (h | ⟨e2, he2, -, ht2⟩)
                · exact Option.noConfusion h
                · exact Option.noConfusion ht2
            · simp only [submit_pick, hE, hT]
              rw [if_neg (by simp [hAlive]), if_neg (by simp [hReuse]),
                if_neg (by simp [hDup])]
              constructor
              · intro h; cases h
              · rintro ⟨e2, he2, hcase⟩
                have he2' : e = e2 := Option.some.inj he2
                subst he2'
                rcases hcase with hdead | ⟨tm2, htm2, hcase2⟩
                · rw [hAlive] at hdead
                  exact Bool.noConfusion hdead
                · have htm2' : tm = tm2 := Option.some.inj htm2
                  subst htm2'
                  rcases hcase2 with ⟨p, hpm, hp1, hp2⟩ | ⟨p, hpm, hp1, hp2, hp3⟩
                  · exact absurd (by simp [hp1, hp2] : (p.entry_id == body.entry_id &&
                      p.team_id == tm.id) = true) (by simpa using hre' p hpm)
                  · exact absurd (by simp [hp1, hp2, hp3] : (p.entry_id == body.entry_id &&
                      p.season == body.season && p.week == body.week) = true)
                      (by simpa using hdu' p hpm)
            · intro n hn
              simp only [submit_pick, hE, hT] at hn
              rw [if_neg (by simp [hAlive]), if_neg (by simp [hReuse]),
                if_neg (by simp [hDup])] at hn
              cases hn
            · intro db2 pk hok
              simp only [submit_pick, hE, hT] at hok
              rw [if_neg (by simp [hAlive]), if_neg (by simp [hReuse]),
                if_neg (by simp [hDup])] at hok
              injection hok with h
              injection h with h1 h2
              subst h1
              subst h2
              refine ⟨rfl, rfl, rfl, rfl, rfl, rfl, rfl, rfl, ?_⟩
              rintro ⟨hw, ht⟩
              constructor
              · rw [List.pairwise_append]
                refine ⟨hw, List.pairwise_singleton _ _, ?_⟩
                intro a ha b hb
                rw [List.mem_singleton] at hb
                subst hb
                simp only
                rintro ⟨h1, h2, h3⟩
                exact absurd (by simp [h1, h2, h3] : (a.entry_id == body.entry_id &&
                  a.season == body.season && a.week == body.week) = true)
                  (by simpa using hdu' a ha)
              · rw [List.pairwise_append]
                refine ⟨ht, List.pairwise_singleton _ _, ?_⟩
                intro a ha b hb
                rw [List.mem_singleton] at hb
                subst hb
                simp only
                rintro ⟨h1, h2⟩
                exact absurd (by simp [h1, h2] : (a.entry_id == body.entry_id &&
                  a.team_id == tm.id) = true)
                  (by simpa using hre' a ha)
    · refine ⟨?_, ?_, ?_, ?_⟩
      · simp only [submit_pick, hE]
        rw [if_pos (by simp [Bool.not_eq_true] at hAlive; simp [hAlive])]
        simp only [hE, Except.error.injEq, Option.some.injEq]
        constructor
        · intro h; exact absurd h (by norm_num)
        · rintro (h | ⟨e2, he2, hal2, -⟩)
          · exact Option.noConfusion h
          · subst he2
            exact absurd hal2 hAlive
      · simp only [submit_pick, hE]
        rw [if_pos (by simp [Bool.not_eq_true] at hAlive; simp [hAlive])]
        simp only [Except.error.injEq, true_iff]
        exact ⟨e, rfl, Or.inl (by simpa using hAlive)⟩
      · intro n hn
        simp only [submit_pick, hE] at hn
        rw [if_pos (by simp [Bool.not_eq_true] at hAlive; simp [hAlive])] at hn
        injection hn with h
        exact Or.inl h.symm
      · intro db2 pk hok
        simp only [submit_pick, hE] at hok
        rw [if_pos (by simp [Bool.not_eq_true] at hAlive; simp [hAlive])] at hok
        cases hok

/-- C7 witness: the rejection-status clause applied to a store with no
entries (entry lookup fails with 404). -/
theorem c7_submit_pick_witness :
    submit_pick ⟨[], [], [], []⟩ ⟨1, "KC", 1, 1⟩ 0 = Except.error 404 ∧
    ((404 : Nat) = 400 ∨ (404 : Nat) = 404) := by
  have h : submit_pick ⟨[], [], [], []⟩ ⟨1, "KC", 1, 1⟩ 0 = Except.error 404 := by
    simp [submit_pick]
  exact ⟨h, (c7_submit_pick ⟨[], [], [], []⟩ ⟨1, "KC", 1, 1⟩ 0).2.2.1 404 h⟩

/-- C8 counterexample: a pick whose entry was already eliminated (in week
3) loses its week-5 game; `_update_pick_outcomes` sets the pick's outcome
to false but leaves the entry untouched, so `eliminated_week` stays 3
instead of being set to the reconciled week 5 as the claim requires. -/
theorem c8_counterexample :
    (update_pick_outcomes
        ⟨[], [⟨10, 1, 5, 2, 1, false, some true, none, none⟩],
         [⟨1, 1, false, some 3⟩], [⟨20, 1, 1, 1, 5, none, false, none⟩]⟩ 1 5).1.picks =
      [⟨20, 1, 1, 1, 5, none, false, some false⟩] ∧
    (update_pick_outcomes
        ⟨[], [⟨10, 1, 5, 2, 1, false, some true, none, none⟩],
         [⟨1, 1, false, some 3⟩], [⟨20, 1, 1, 1, 5, none, false, none⟩]⟩ 1 5).1.entries =
      [⟨1, 1, false, some 3⟩] ∧
    (⟨1, 1, false, some 3⟩ : EntryRec).eliminated_week ≠ some 5 := by
  refine ⟨?_, ?_, by simp⟩
  · simp [update_pick_outcomes, pickFoldStep, updateOnePick, findCompletedGame,
      List.find?]
  · simp [update_pick_outcomes, pickFoldStep, updateOnePick, findCompletedGame,
      List.find?]

/-- C8 amended: every pick of `(season, week)` with pending outcome whose
completed game exists gets its outcome set to whether the picked team won;
picks with an outcome already set, outside the week, or without a
completed game are unchanged; and an entry is flipped to
`is_alive = false` with `eliminated_week = week` exactly when it is still
alive and owns a losing pick in this reconciliation — an entry already
eliminated is left untouched (its `eliminated_week` is not overwritten). -/
theorem c8_amended (db : Db) (season week : Nat) :
    (update_pick_outcomes db season week).1.picks =
      db.picks.map (fun p => (updateOnePick db.games season week [] p).1) ∧
    (∀ p : PickRec, p.season = season → p.week = week → p.outcome = none →
      ∀ g, findCompletedGame db.games season week p.team_id = some g →
        (updateOnePick db.games season week [] p).1 =
          { p with outcome := some (if g.home_team_id = p.team_id
              then g.home_win.getD false else !(g.home_win.getD false)) }) ∧
    (∀ p : PickRec, (¬(p.season = season ∧ p.week = week ∧ p.outcome = none) ∨
        findCompletedGame db.games season week p.team_id = none) →
      (updateOnePick db.games season week [] p).1 = p) ∧
    (update_pick_outcomes db season week).1.entries =
      db.entries.map (fun e =>
        if e.is_alive ∧ ∃ q ∈ db.picks, pickLoses db.games season week q = true ∧
            q.entry_id = e.id then
          { e with is_alive := false, eliminated_week := some week }
        else e) := by
  refine ⟨?_, ?_, ?_, ?_⟩
  · show (db.picks.foldl (pickFoldStep db.games season week) ([], db.entries, 0)).1 = _
    rw [foldStep_picks]
    simp
  · intro p h1 h2 h3 g hg
    rw [updateOnePick, if_pos ⟨h1, h2, h3⟩, hg]
  · intro p hp
    rcases hp with hc | hg
    · rw [updateOnePick, if_neg hc]
    · by_cases hc : p.season = season ∧ p.week = week ∧ p.outcome = none
      · rw [updateOnePick, if_pos hc, hg]
      · rw [updateOnePick, if_neg hc]
  · show (db.picks.foldl (pickFoldStep db.games season week) ([], db.entries, 0)).2.1 = _
    rw [foldStep_entries]

/-- C8 amended, witness: the untouched-pick clause applied to a pick with
no completed game. -/
theorem c8_amended_witness :
    findCompletedGame ([] : List GameRec) 1 5 1 = none ∧
    (updateOnePick ([] : List GameRec) 1 5 []
        ⟨0, 1, 1, 1, 5, none, false, none⟩).1 =
      (⟨0, 1, 1, 1, 5, none, false, none⟩ : PickRec) := by
  have h : findCompletedGame ([] : List GameRec) 1 5 1 = none := rfl
  exact ⟨h, (c8_amended ⟨[], [], [], [⟨0, 1, 1, 1, 5, none, false, none⟩]⟩ 1 5).2.2.1
    ⟨0, 1, 1, 1, 5, none, false, none⟩ (Or.inr h)⟩

/-- C6: every recommendation that `simulate_portfolio` emits belongs to
the alive entry `es` it was computed for (same `entry_id`, located at the
recommendation's position among the entry states), and its team maximizes
`diversity_score(t) = p_t · (1 − 0.05·k_t)` over that entry's candidate
teams, where `p_t` is the single-entry survival probability computed with
the generator state the call actually threads to `es` (the state left by
folding the portfolio step over the entries before `es`, starting from
the freshly seeded generator) and `k_t` counts the recommendations
already issued for `t` earlier in the same call; among equal scores the
lexicographically smallest abbreviation wins (`recArgmax` spells this out
over the sorted team list and win matrix the call builds). -/
theorem c6_portfolio_diversity (db : Db) (season current_week : Nat)
    (entry_states : List EntryState) (n_sims : Nat) :
    ∀ (i : Nat) (rec1 : Recommendation),
      (simulate_portfolio db season current_week entry_states n_sims)[i]? = some rec1 →
      ∃ (es : EntryState) (pre suf : List EntryState),
        entry_states = pre ++ es :: suf ∧ es.is_alive = true ∧
        es.entry_id = rec1.entry_id ∧
        recArgmax
          (build_win_matrix (get_remaining_matchups db season current_week)
            (insertionSortBy (fun a b => a ≤ b)
              ((get_remaining_matchups db season current_week).map Prod.fst))
            (sortedTeams (((get_remaining_matchups db season current_week).flatMap Prod.snd).map
              (fun m => m.team_abbr))))
          (sortedTeams (((get_remaining_matchups db season current_week).flatMap Prod.snd).map
            (fun m => m.team_abbr)))
          n_sims es
          ((pre.foldl
            (portfolioStep
              (build_win_matrix (get_remaining_matchups db season current_week)
                (insertionSortBy (fun a b => a ≤ b)
                  ((get_remaining_matchups db season current_week).map Prod.fst))
                (sortedTeams (((get_remaining_matchups db season current_week).flatMap
                  Prod.snd).map (fun m => m.team_abbr))))
              (sortedTeams (((get_remaining_matchups db season current_week).flatMap
                Prod.snd).map (fun m => m.team_abbr)))
              (insertionSortBy (fun a b => a ≤ b)
                ((get_remaining_matchups db season current_week).map Prod.fst))
              (get_remaining_matchups db season current_week) current_week n_sims)
            ([], [], defaultRng SEED)).2.2)
          (((simulate_portfolio db season current_week entry_states n_sims).take i).map
            (fun rec2 => rec2.recommended_team))
          rec1.recommended_team := by
  intro i rec1 hg
  by_cases hemp : (get_remaining_matchups db season current_week).isEmpty = true
  · rw [show simulate_portfolio db season current_week entry_states n_sims = [] from by
      unfold simulate_portfolio
      rw [if_pos hemp]] at hg
    simp at hg
  · have hout : simulate_portfolio db season current_week entry_states n_sims =
        (entry_states.foldl
          (portfolioStep
            (build_win_matrix (get_remaining_matchups db season current_week)
              (insertionSortBy (fun a b => a ≤ b)
                ((get_remaining_matchups db season current_week).map Prod.fst))
              (sortedTeams (((get_remaining_matchups db season current_week).flatMap Prod.snd).map
                (fun m => m.team_abbr))))
            (sortedTeams (((get_remaining_matchups db season current_week).flatMap Prod.snd).map
              (fun m => m.team_abbr)))
            (insertionSortBy (fun a b => a ≤ b)
              ((get_remaining_matchups db season current_week).map Prod.fst))
            (get_remaining_matchups db season current_week) current_week n_sims)
          ([], [], defaultRng SEED)).1 := by
      unfold simulate_portfolio
      rw [if_neg hemp]
    have hpt := sortedTeams_pairwise_lt
      (((get_remaining_matchups db season current_week).flatMap Prod.snd).map
        (fun m => m.team_abbr))
    have hlen : ∀ (row0 : Row) (rest2 : List Row),
        build_win_matrix (get_remaining_matchups db season current_week)
          (insertionSortBy (fun a b => a ≤ b)
            ((get_remaining_matchups db season current_week).map Prod.fst))
          (sortedTeams (((get_remaining_matchups db season current_week).flatMap Prod.snd).map
            (fun m => m.team_abbr))) = row0 :: rest2 →
        row0.length ≤ (sortedTeams (((get_remaining_matchups db season current_week).flatMap
          Prod.snd).map (fun m => m.team_abbr))).length := by
      intro row0 rest2 hW
      exact le_of_eq (buildMatrixRow_length _ _ _ row0 (by rw [hW]; exact List.mem_cons_self _ _))
    obtain ⟨-, hidx⟩ := portfolioFold_spec _ _ _ _ current_week n_sims hpt hlen
      entry_states ([], [], defaultRng SEED) (by simp)
    rw [hout] at hg ⊢
    exact hidx i rec1 (by simp) hg

end Survivor

namespace Survivor

set_option maxHeartbeats 4000000 in
/-- C6, witness: a one-game database (teams `AAA`, `BBB`, home win
probability `3/5`) with a single fresh alive entry; the emitted
recommendation is `AAA`, and the theorem yields its argmax property. -/
theorem c6_portfolio_diversity_witness :
    (simulate_portfolio
        ⟨[⟨1, "AAA"⟩, ⟨2, "BBB"⟩],
         [⟨1, 2025, 1, 1, 2, false, none, some (3/5 : ℚ), some (2/5)⟩], [], []⟩
        2025 1 [⟨1, [], true⟩] 1)[0]? =
      some ⟨1, 1, "AAA", some (3/5 : ℚ), 1, 1, [(1, "AAA")]⟩ ∧
    (∃ (es : EntryState) (pre suf : List EntryState),
      [(⟨1, [], true⟩ : EntryState)] = pre ++ es :: suf ∧ es.is_alive = true ∧
      es.entry_id = 1 ∧
      recArgmax
        (build_win_matrix
          (get_remaining_matchups
            ⟨[⟨1, "AAA"⟩, ⟨2, "BBB"⟩],
             [⟨1, 2025, 1, 1, 2, false, none, some (3/5 : ℚ), some (2/5)⟩], [], []⟩
            2025 1)
          (insertionSortBy (fun a b => a ≤ b)
            ((get_remaining_matchups
              ⟨[⟨1, "AAA"⟩, ⟨2, "BBB"⟩],
               [⟨1, 2025, 1, 1, 2, false, none, some (3/5 : ℚ), some (2/5)⟩], [], []⟩
              2025 1).map Prod.fst))
          (sortedTeams (((get_remaining_matchups
              ⟨[⟨1, "AAA"⟩, ⟨2, "BBB"⟩],
               [⟨1, 2025, 1, 1, 2, false, none, some (3/5 : ℚ), some (2/5)⟩], [], []⟩
              2025 1).flatMap Prod.snd).map (fun m => m.team_abbr))))
        (sortedTeams (((get_remaining_matchups
            ⟨[⟨1, "AAA"⟩, ⟨2, "BBB"⟩],
             [⟨1, 2025, 1, 1, 2, false, none, some (3/5 : ℚ), some (2/5)⟩], [], []⟩
            2025 1).flatMap Prod.snd).map (fun m => m.team_abbr)))
        1 es
        ((pre.foldl
          (portfolioStep
            (build_win_matrix
              (get_remaining_matchups
                ⟨[⟨1, "AAA"⟩, ⟨2, "BBB"⟩],
                 [⟨1, 2025, 1, 1, 2, false, none, some (3/5 : ℚ), some (2/5)⟩], [], []⟩
                2025 1)
              (insertionSortBy (fun a b => a ≤ b)
                ((get_remaining_matchups
                  ⟨[⟨1, "AAA"⟩, ⟨2, "BBB"⟩],
                   [⟨1, 2025, 1, 1, 2, false, none, some (3/5 : ℚ), some (2/5)⟩], [], []⟩
                  2025 1).map Prod.fst))
              (sortedTeams (((get_remaining_matchups
                  ⟨[⟨1, "AAA"⟩, ⟨2, "BBB"⟩],
                   [⟨1, 2025, 1, 1, 2, false, none, some (3/5 : ℚ), some (2/5)⟩], [], []⟩
                  2025 1).flatMap Prod.snd).map (fun m => m.team_abbr))))
            (sortedTeams (((get_remaining_matchups
                ⟨[⟨1, "AAA"⟩, ⟨2, "BBB"⟩],
                 [⟨1, 2025, 1, 1, 2, false, none, some (3/5 : ℚ), some (2/5)⟩], [], []⟩
                2025 1).flatMap Prod.snd).map (fun m => m.team_abbr)))
            (insertionSortBy (fun a b => a ≤ b)
              ((get_remaining_matchups
                ⟨[⟨1, "AAA"⟩, ⟨2, "BBB"⟩],
                 [⟨1, 2025, 1, 1, 2, false, none, some (3/5 : ℚ), some (2/5)⟩], [], []⟩
                2025 1).map Prod.fst))
            (get_remaining_matchups
              ⟨[⟨1, "AAA"⟩, ⟨2, "BBB"⟩],
               [⟨1, 2025, 1, 1, 2, false, none, some (3/5 : ℚ), some (2/5)⟩], [], []⟩
              2025 1) 1 1)
          ([], [], defaultRng SEED)).2.2)
        (((simulate_portfolio
            ⟨[⟨1, "AAA"⟩, ⟨2, "BBB"⟩],
             [⟨1, 2025, 1, 1, 2, false, none, some (3/5 : ℚ), some (2/5)⟩], [], []⟩
            2025 1 [⟨1, [], true⟩] 1).take 0).map (fun rec2 => rec2.recommended_team))
        "AAA") := by
  have hAB : "AAA" ≤ "BBB" := by
    rw [String.le_iff_toList_le]; decide
  have hSort : sortedTeams ["AAA", "BBB"] = ["AAA", "BBB"] := by
    simp [sortedTeams, insertionSortBy, insertSortedBy, List.dedup_cons_of_not_mem, hAB]
  have hM : get_remaining_matchups
      ⟨[⟨1, "AAA"⟩, ⟨2, "BBB"⟩],
       [⟨1, 2025, 1, 1, 2, false, none, some (3/5 : ℚ), some (2/5)⟩], [], []⟩
      2025 1 =
      [(1, [⟨1, "AAA", 1, "BBB", true, some (3/5 : ℚ)⟩,
            ⟨1, "BBB", 2, "AAA", false, some (2/5 : ℚ)⟩])] := rfl
  have hW : build_win_matrix
      [(1, [⟨1, "AAA", 1, "BBB", true, some (3/5 : ℚ)⟩,
            ⟨1, "BBB", 2, "AAA", false, some (2/5 : ℚ)⟩])]
      [1] ["AAA", "BBB"] = [[some (3/5 : ℚ), some (2/5)]] := rfl
  have hfull : simulate_portfolio
      ⟨[⟨1, "AAA"⟩, ⟨2, "BBB"⟩],
       [⟨1, 2025, 1, 1, 2, false, none, some (3/5 : ℚ), some (2/5)⟩], [], []⟩
      2025 1 [⟨1, [], true⟩] 1 =
      [⟨1, 1, "AAA", some (3/5 : ℚ), 1, 1, [(1, "AAA")]⟩] := by
    simp only [simulate_portfolio, hM]
    norm_num [hSort, hW, portfolioStep, buildUsedMask, diversityScores,
      pyMaxBySnd, simulate_full_season_strategy, beamLoop, beamExpand, beamSort,
      availableTeams, usedIndices, valAt, BEAM_WIDTH,
      simulate_single_entry_rng, singleEntryStep,
      List.range, List.range.loop, firstPickAvailable, drawOutcomes, simWeeks,
      boolMean, List.count_cons, defaultRng, seedStream, SEED,
      insertionSortBy, insertSortedBy,
      Function.iterate_succ_apply, Function.iterate_zero_apply,
      decide_eq_true, decide_eq_false, List.filter, List.flatMap_cons,
      List.flatMap_nil, List.find?_cons_of_pos, List.find?_cons_of_neg,
      beq_iff_eq, List.isEmpty_cons, List.isEmpty_nil,
      List.take_succ_cons, List.take_zero, List.take_nil, List.cons_ne_nil,
      ne_eq]
  have hg : (simulate_portfolio
      ⟨[⟨1, "AAA"⟩, ⟨2, "BBB"⟩],
       [⟨1, 2025, 1, 1, 2, false, none, some (3/5 : ℚ), some (2/5)⟩], [], []⟩
      2025 1 [⟨1, [], true⟩] 1)[0]? =
      some ⟨1, 1, "AAA", some (3/5 : ℚ), 1, 1, [(1, "AAA")]⟩ := by
    rw [hfull]; rfl
  exact ⟨hg, c6_portfolio_diversity _ 2025 1 _ 1 0 _ hg⟩

end Survivor

namespace Survivor

theorem mem_usedIndices (m : List Bool) (t : ℕ) :
    t ∈ usedIndices m ↔ m.getD t false = true := by
  simp only [usedIndices, List.mem_filter, List.mem_range]
  constructor
  · rintro ⟨-, h⟩; exact h
  · intro h
    refine ⟨?_, h⟩
    by_contra hlt
    push_neg at hlt
    rw [List.getD_eq_getElem?_getD, List.getElem?_eq_none hlt] at h
    exact Bool.noConfusion h

theorem avail_mem_intro {row : Row} {u : List ℕ} {t : ℕ}
    (h1 : t < row.length) (h2 : t ∉ u) (h3 : (row.getD t none).isSome = true)
    (h4 : 0 ≤ valAt row t) : t ∈ availableTeams row u := by
  simp only [availableTeams, List.mem_filter, List.mem_range, Bool.and_eq_true,
    decide_eq_true_eq, Bool.not_eq_true']
  refine ⟨h1, ⟨⟨?_, h3⟩, h4⟩⟩
  simpa using h2

theorem beamExpand_child {row : Row} {states : List BeamState} {s : BeamState} {t : ℕ}
    (hs : s ∈ states) (ht : t ∈ availableTeams row s.1) :
    (t :: s.1, s.2.1 ++ [(t : ℤ)], s.2.2 * valAt row t) ∈ beamExpand row states := by
  simp only [beamExpand, List.mem_flatMap]
  refine ⟨s, hs, ?_⟩
  have hne : ¬((availableTeams row s.1).isEmpty = true) :=
    fun he => (List.ne_nil_of_mem ht) (List.isEmpty_iff.mp he)
  rw [if_neg hne]
  exact List.mem_map.mpr ⟨t, ht, rfl⟩

theorem beamSort_pairwise (l : List BeamState) :
    (beamSort l).Pairwise (fun a b => decide (b.2.2 ≤ a.2.2) = true) := by
  have htot : ∀ a b : BeamState,
      (fun a b : BeamState => decide (b.2.2 ≤ a.2.2)) a b = true ∨
      (fun a b : BeamState => decide (b.2.2 ≤ a.2.2)) b a = true := by
    intro a b
    rcases le_total a.2.2 b.2.2 with h | h
    · exact Or.inr (by simpa using h)
    · exact Or.inl (by simpa using h)
  have htrans : ∀ a b c : BeamState,
      (fun a b : BeamState => decide (b.2.2 ≤ a.2.2)) a b = true →
      (fun a b : BeamState => decide (b.2.2 ≤ a.2.2)) b c = true →
      (fun a b : BeamState => decide (b.2.2 ≤ a.2.2)) a c = true := by
    intro a b c hab hbc
    simp only [decide_eq_true_eq] at hab hbc ⊢
    exact le_trans hbc hab
  exact insertionSortBy_pairwise htot htrans l

theorem beamSort_head_ge (l : List BeamState) (d : BeamState) :
    ∀ s ∈ l, s.2.2 ≤ ((beamSort l).headD d).2.2 := by
  intro s hs
  have hperm : List.Perm (beamSort l) l :=
    insertionSortBy_perm (fun a b : BeamState => decide (b.2.2 ≤ a.2.2)) l
  have hs' : s ∈ beamSort l := hperm.mem_iff.mpr hs
  have hp := beamSort_pairwise l
  cases hsort : beamSort l with
  | nil => rw [hsort] at hs'; cases hs'
  | cons h t =>
    rw [hsort] at hs' hp
    rcases List.mem_cons.mp hs' with rfl | hmem
    · exact le_refl _
    · have := (List.pairwise_cons.mp hp).1 s hmem
      simpa using this

theorem sorted_take_ge (l : List BeamState) (k : Nat) :
    ∀ s ∈ (beamSort l).take k, ∀ u ∈ (beamSort l).drop k, u.2.2 ≤ s.2.2 := by
  intro s hs u hu
  have hp := beamSort_pairwise l
  rw [← List.take_append_drop k (beamSort l)] at hp
  have := (List.pairwise_append.mp hp).2.2 s hs u hu
  simpa using this

theorem exists_mem_map_ne {l : List α} {f : α → β} (hn : (l.map f).Nodup)
    (h2 : 2 ≤ l.length) (y : β) : ∃ x ∈ l, f x ≠ y := by
  match l, h2 with
  | a :: b :: t, _ =>
    simp only [List.map_cons, List.nodup_cons, List.mem_cons, List.mem_map] at hn
    by_cases hy : f a = y
    · refine ⟨b, List.mem_cons_of_mem _ (List.mem_cons_self _ _), ?_⟩
      intro hb
      exact hn.1 (Or.inl (by rw [hy, hb]))
    · exact ⟨a, List.mem_cons_self _ _, hy⟩

end Survivor

namespace Survivor

set_option maxHeartbeats 4000000 in
/-- C2 counterexample: the width-5 beam search does NOT dominate every
greedy full-season trace.  On a 3-week, 6-team matrix, week 1 has a
two-way tie at `4/5` (columns 2 and 3); the beam keeps only the five
children of the column-2 pick after week 2, every kept state has used
team 2, and week 3 offers only team 2, so the beam returns survival `0`,
while the greedy trace `[3, 0, 2]` survives with probability `12/125`. -/
theorem c2_counterexample :
    isGreedyTrace
      [[some (2/5 : ℚ), some (3/5), some (4/5), some (4/5), none, none],
       [some (1/5 : ℚ), some (1/5), some 0, some (1/5), some (1/5), some (1/5)],
       [none, none, some (3/5 : ℚ), none, none, none]]
      [false, false, false, false, false, false] [3, 0, 2] = true ∧
    (simulate_full_season_strategy
      [[some (2/5 : ℚ), some (3/5), some (4/5), some (4/5), none, none],
       [some (1/5 : ℚ), some (1/5), some 0, some (1/5), some (1/5), some (1/5)],
       [none, none, some (3/5 : ℚ), none, none, none]]
      [false, false, false, false, false, false]
      ["A", "B", "C", "D", "E", "F"] 1 (defaultRng SEED)).2 <
    traceProd
      [[some (2/5 : ℚ), some (3/5), some (4/5), some (4/5), none, none],
       [some (1/5 : ℚ), some (1/5), some 0, some (1/5), some (1/5), some (1/5)],
       [none, none, some (3/5 : ℚ), none, none, none]]
      [3, 0, 2] := by
  constructor
  · norm_num [isGreedyTrace, contAvailable, valAt, List.range, List.range.loop,
      decide_eq_true, decide_eq_false]
  · have h1 : (simulate_full_season_strategy
        [[some (2/5 : ℚ), some (3/5), some (4/5), some (4/5), none, none],
         [some (1/5 : ℚ), some (1/5), some 0, some (1/5), some (1/5), some (1/5)],
         [none, none, some (3/5 : ℚ), none, none, none]]
        [false, false, false, false, false, false]
        ["A", "B", "C", "D", "E", "F"] 1 (defaultRng SEED)).2 = 0 := by
      norm_num [simulate_full_season_strategy, beamLoop, beamExpand, beamSort,
        availableTeams, usedIndices, valAt, BEAM_WIDTH,
        insertionSortBy, insertSortedBy, List.range, List.range.loop,
        decide_eq_true, decide_eq_false, List.filter, List.flatMap_cons,
        List.flatMap_nil, List.isEmpty_cons, List.isEmpty_nil,
        List.take_succ_cons, List.take_zero, List.take_nil, List.cons_ne_nil, ne_eq]
    rw [h1]
    norm_num [traceProd, valAt]

end Survivor

namespace Survivor

theorem getD_set_self (l : List Bool) (i : ℕ) (b : Bool) (h : i < l.length) :
    (l.set i b).getD i false = b := by
  rw [List.getD_eq_getElem?_getD, List.getElem?_set_eq_of_lt b h]
  rfl

theorem getD_set_ne (l : List Bool) {i j : ℕ} (b : Bool) (h : i ≠ j) :
    (l.set i b).getD j false = l.getD j false := by
  rw [List.getD_eq_getElem?_getD, List.getElem?_set_ne h, ← List.getD_eq_getElem?_getD]

end Survivor

namespace Survivor

/-- C2 amended: for win matrices of at most two weeks whose entries are
probabilities in `[0, 1]` and whose rows are no longer than the used
mask, the survival returned by `simulate_full_season_strategy` is at
least the week-aligned product of win probabilities along any greedy
full-season trace.  (With three or more weeks the bound fails, see the
counterexample.) -/
theorem c2_amended (wm : WinMatrix) (used_mask : List Bool) (all_teams : List String)
    (n_sims : Nat) (r : RngState) (ts : List Nat)
    (hw : wm.length ≤ 2) (hrange : matrixInRange wm)
    (hml : ∀ row ∈ wm, row.length ≤ used_mask.length)
    (hg : isGreedyTrace wm used_mask ts = true) :
    traceProd wm ts ≤ (simulate_full_season_strategy wm used_mask all_teams n_sims r).2 := by
  rcases wm with _ | ⟨row0, _ | ⟨row1, _ | ⟨row2, rest⟩⟩⟩
  · -- zero weeks
    rw [show traceProd [] ts = 1 from rfl]
    simp [simulate_full_season_strategy]
  · -- one week
    rcases ts with _ | ⟨t0, ts1⟩
    · simp [isGreedyTrace] at hg
    · simp only [isGreedyTrace, Bool.and_eq_true] at hg
      obtain ⟨⟨hA0, hMax0⟩, hRest⟩ := hg
      have hts1 : ts1 = [] := by
        simpa [isGreedyTrace, List.isEmpty_iff] using hRest
      subst hts1
      have hr0 : rowInRange row0 := hrange _ (List.mem_cons_self _ _)
      obtain ⟨hlt0, hused0, hsome0⟩ := contAvailable_iff.mp hA0
      have hnn0 : 0 ≤ valAt row0 t0 := (contAvailable_val_nonneg hr0 hA0).1
      have ht0u : t0 ∉ usedIndices used_mask := by
        intro hmem
        rw [mem_usedIndices, hused0] at hmem
        exact Bool.noConfusion hmem
      have hT0 : t0 ∈ availableTeams row0 (usedIndices used_mask) :=
        avail_mem_intro hlt0 ht0u hsome0 hnn0
      have hc0 : ((t0 : ℕ) :: usedIndices used_mask,
          ([] : List ℤ) ++ [(t0 : ℤ)], (1 : ℚ) * valAt row0 t0) ∈
          beamExpand row0 [(usedIndices used_mask, ([] : List ℤ), (1 : ℚ))] :=
        beamExpand_child (List.mem_singleton.mpr rfl) hT0
      have hX0ne : beamExpand row0 [(usedIndices used_mask, ([] : List ℤ), (1 : ℚ))] ≠ [] :=
        List.ne_nil_of_mem hc0
      have hbl : beamLoop [row0] [(usedIndices used_mask, ([] : List ℤ), (1 : ℚ))] =
          (beamSort (beamExpand row0
            [(usedIndices used_mask, ([] : List ℤ), (1 : ℚ))])).take BEAM_WIDTH := by
        simp only [beamLoop]
        rw [if_neg (by simpa [List.isEmpty_iff] using hX0ne)]
      cases hsort : beamSort (beamExpand row0
          [(usedIndices used_mask, ([] : List ℤ), (1 : ℚ))]) with
      | nil =>
        exfalso
        apply hX0ne
        have hperm : List.Perm (beamSort (beamExpand row0
            [(usedIndices used_mask, ([] : List ℤ), (1 : ℚ))]))
            (beamExpand row0 [(usedIndices used_mask, ([] : List ℤ), (1 : ℚ))]) :=
          insertionSortBy_perm (fun a b : BeamState => decide (b.2.2 ≤ a.2.2)) _
        rw [hsort] at hperm
        exact (hperm.nil_eq).symm
      | cons b bs =>
        have hres : (simulate_full_season_strategy [row0] used_mask all_teams n_sims r).2 =
            b.2.2 := by
          simp only [simulate_full_season_strategy]
          rw [hbl, hsort]
          simp [BEAM_WIDTH]
        rw [hres]
        have hle := beamSort_head_ge
          (beamExpand row0 [(usedIndices used_mask, ([] : List ℤ), (1 : ℚ))]) b _ hc0
        rw [hsort] at hle
        simp only [List.headD_cons] at hle
        calc traceProd [row0] [t0] = 1 * valAt row0 t0 := by
              simp [traceProd, mul_comm]
          _ ≤ b.2.2 := hle
  · -- two weeks
    rcases ts with _ | ⟨t0, ts1⟩
    · simp [isGreedyTrace] at hg
    rcases ts1 with _ | ⟨t1, ts2⟩
    · simp only [isGreedyTrace, Bool.and_eq_true] at hg
      exact absurd hg.2 (by simp [isGreedyTrace])
    simp only [isGreedyTrace, Bool.and_eq_true] at hg
    obtain ⟨⟨hA0, hMax0⟩, ⟨hA1, hMax1⟩, hRest⟩ := hg
    have hts2 : ts2 = [] := by
      simpa [isGreedyTrace, List.isEmpty_iff] using hRest
    subst hts2
    have hr0 : rowInRange row0 := hrange _ (List.mem_cons_self _ _)
    have hr1 : rowInRange row1 := hrange _ (List.mem_cons_of_mem _ (List.mem_cons_self _ _))
    obtain ⟨hlt0, hused0, hsome0⟩ := contAvailable_iff.mp hA0
    obtain ⟨hlt1, hused1, hsome1⟩ := contAvailable_iff.mp hA1
    have hnn0 : 0 ≤ valAt row0 t0 := (contAvailable_val_nonneg hr0 hA0).1
    have hnn1 : 0 ≤ valAt row1 t1 := (contAvailable_val_nonneg hr1 hA1).1
    have hlen0 : row0.length ≤ used_mask.length := hml _ (List.mem_cons_self _ _)
    have ht0m : t0 < used_mask.length := lt_of_lt_of_le hlt0 hlen0
    have hne10 : t1 ≠ t0 := by
      intro h
      rw [h, getD_set_self used_mask t0 true ht0m] at hused1
      exact Bool.noConfusion hused1
    have hm0t1 : used_mask.getD t1 false = false := by
      rw [← getD_set_ne used_mask true (fun h => hne10 h.symm)]
      exact hused1
    have ht0u : t0 ∉ usedIndices used_mask := by
      intro hmem
      rw [mem_usedIndices, hused0] at hmem
      exact Bool.noConfusion hmem
    have ht1u : t1 ∉ usedIndices used_mask := by
      intro hmem
      rw [mem_usedIndices, hm0t1] at hmem
      exact Bool.noConfusion hmem
    have hT0 : t0 ∈ availableTeams row0 (usedIndices used_mask) :=
      avail_mem_intro hlt0 ht0u hsome0 hnn0
    have hc0 : ((t0 : ℕ) :: usedIndices used_mask,
        ([] : List ℤ) ++ [(t0 : ℤ)], (1 : ℚ) * valAt row0 t0) ∈
        beamExpand row0 [(usedIndices used_mask, ([] : List ℤ), (1 : ℚ))] :=
      beamExpand_child (List.mem_singleton.mpr rfl) hT0
    have hX0ne : beamExpand row0 [(usedIndices used_mask, ([] : List ℤ), (1 : ℚ))] ≠ [] :=
      List.ne_nil_of_mem hc0
    have hL1ne : (beamSort (beamExpand row0
        [(usedIndices used_mask, ([] : List ℤ), (1 : ℚ))])).take BEAM_WIDTH ≠ [] := by
      intro h
      rcases (List.take_eq_nil_iff).mp h with h5 | hnil
      · exact absurd h5 (by simp [BEAM_WIDTH])
      · apply hX0ne
        have hperm : List.Perm (beamSort (beamExpand row0
            [(usedIndices used_mask, ([] : List ℤ), (1 : ℚ))]))
            (beamExpand row0 [(usedIndices used_mask, ([] : List ℤ), (1 : ℚ))]) :=
          insertionSortBy_perm (fun a b : BeamState => decide (b.2.2 ≤ a.2.2)) _
        rw [hnil] at hperm
        exact (hperm.nil_eq).symm
    have hX1ne : beamExpand row1 ((beamSort (beamExpand row0
        [(usedIndices used_mask, ([] : List ℤ), (1 : ℚ))])).take BEAM_WIDTH) ≠ [] :=
      beamExpand_ne_nil hL1ne
    have hbl : beamLoop [row0, row1] [(usedIndices used_mask, ([] : List ℤ), (1 : ℚ))] =
        (beamSort (beamExpand row1 ((beamSort (beamExpand row0
          [(usedIndices used_mask, ([] : List ℤ), (1 : ℚ))])).take BEAM_WIDTH))).take
          BEAM_WIDTH := by
      simp only [beamLoop]
      rw [if_neg (by simpa [List.isEmpty_iff] using hX0ne)]
      rw [if_neg (by simpa [List.isEmpty_iff] using hX1ne)]
    -- a member of the second expansion with survival at least v0 * v1
    have hkey : ∃ c ∈ beamExpand row1 ((beamSort (beamExpand row0
        [(usedIndices used_mask, ([] : List ℤ), (1 : ℚ))])).take BEAM_WIDTH),
        valAt row0 t0 * valAt row1 t1 ≤ c.2.2 := by
      have hperm0 : List.Perm (beamSort (beamExpand row0
          [(usedIndices used_mask, ([] : List ℤ), (1 : ℚ))]))
          (beamExpand row0 [(usedIndices used_mask, ([] : List ℤ), (1 : ℚ))]) :=
        insertionSortBy_perm (fun a b : BeamState => decide (b.2.2 ≤ a.2.2)) _
      by_cases hc0L : ((t0 : ℕ) :: usedIndices used_mask,
          ([] : List ℤ) ++ [(t0 : ℤ)], (1 : ℚ) * valAt row0 t0) ∈
          (beamSort (beamExpand row0
            [(usedIndices used_mask, ([] : List ℤ), (1 : ℚ))])).take BEAM_WIDTH
      · have hT1 : t1 ∈ availableTeams row1 (((t0 : ℕ) :: usedIndices used_mask,
            ([] : List ℤ) ++ [(t0 : ℤ)], (1 : ℚ) * valAt row0 t0) : BeamState).1 := by
          refine avail_mem_intro hlt1 ?_ hsome1 hnn1
          simp only [List.mem_cons]
          rintro (h | h)
          · exact hne10 h
          · exact ht1u h
        refine ⟨_, beamExpand_child hc0L hT1, ?_⟩
        show valAt row0 t0 * valAt row1 t1 ≤
          ((1 : ℚ) * valAt row0 t0) * valAt row1 t1
        rw [one_mul]
      · have hc0s : ((t0 : ℕ) :: usedIndices used_mask,
            ([] : List ℤ) ++ [(t0 : ℤ)], (1 : ℚ) * valAt row0 t0) ∈
            beamSort (beamExpand row0
              [(usedIndices used_mask, ([] : List ℤ), (1 : ℚ))]) :=
          hperm0.mem_iff.mpr hc0
        have hc0d : ((t0 : ℕ) :: usedIndices used_mask,
            ([] : List ℤ) ++ [(t0 : ℤ)], (1 : ℚ) * valAt row0 t0) ∈
            (beamSort (beamExpand row0
              [(usedIndices used_mask, ([] : List ℤ), (1 : ℚ))])).drop BEAM_WIDTH := by
          rw [← List.take_append_drop BEAM_WIDTH (beamSort (beamExpand row0
            [(usedIndices used_mask, ([] : List ℤ), (1 : ℚ))]))] at hc0s
          rcases List.mem_append.mp hc0s with h | h
          · exact absurd h hc0L
          · exact h
        have hlen5 : ((beamSort (beamExpand row0
            [(usedIndices used_mask, ([] : List ℤ), (1 : ℚ))])).take BEAM_WIDTH).length =
            BEAM_WIDTH := by
          have hd : (beamSort (beamExpand row0
              [(usedIndices used_mask, ([] : List ℤ), (1 : ℚ))])).drop BEAM_WIDTH ≠ [] :=
            List.ne_nil_of_mem hc0d
          have hlt : BEAM_WIDTH < (beamSort (beamExpand row0
              [(usedIndices used_mask, ([] : List ℤ), (1 : ℚ))])).length := by
            by_contra hle
            push_neg at hle
            exact hd (List.drop_eq_nil_of_le hle)
          rw [List.length_take]
          omega
        have havne : ¬ ((availableTeams row0 (usedIndices used_mask)).isEmpty = true) :=
          fun he => (List.ne_nil_of_mem hT0) (List.isEmpty_iff.mp he)
        have hX0eq : beamExpand row0 [(usedIndices used_mask, ([] : List ℤ), (1 : ℚ))] =
            (availableTeams row0 (usedIndices used_mask)).map
              (fun ti => ((ti : ℕ) :: usedIndices used_mask,
                ([] : List ℤ) ++ [(ti : ℤ)], (1 : ℚ) * valAt row0 ti)) := by
          simp only [beamExpand, List.flatMap_cons, List.flatMap_nil, List.append_nil]
          rw [if_neg havne]
        have h1 : ((beamExpand row0
            [(usedIndices used_mask, ([] : List ℤ), (1 : ℚ))]).map
              (fun s : BeamState => s.2.1)).Nodup := by
          rw [hX0eq, List.map_map]
          have hinj : Function.Injective
              (fun ti : ℕ => (([] : List ℤ) ++ [(ti : ℤ)])) := by
            intro a b h
            simpa using h
          have hav : (availableTeams row0 (usedIndices used_mask)).Nodup := by
            simp only [availableTeams]
            exact (List.nodup_range _).filter _
          exact hav.map hinj
        have h2 : ((beamSort (beamExpand row0
            [(usedIndices used_mask, ([] : List ℤ), (1 : ℚ))])).map
              (fun s : BeamState => s.2.1)).Nodup :=
          ((hperm0.map (fun s : BeamState => s.2.1)).nodup_iff).mpr h1
        have hnodup : (((beamSort (beamExpand row0
            [(usedIndices used_mask, ([] : List ℤ), (1 : ℚ))])).take BEAM_WIDTH).map
              (fun s : BeamState => s.2.1)).Nodup :=
          h2.sublist ((List.take_sublist _ _).map _)
        obtain ⟨sstar, hsL1, hsne⟩ := exists_mem_map_ne hnodup
          (by rw [hlen5]; norm_num [BEAM_WIDTH]) [(t1 : ℤ)]
        have hsX0 : sstar ∈ beamExpand row0
            [(usedIndices used_mask, ([] : List ℤ), (1 : ℚ))] :=
          hperm0.mem_iff.mp (List.mem_of_mem_take hsL1)
        rw [hX0eq] at hsX0
        obtain ⟨tiStar, htiav, rfl⟩ := List.mem_map.mp hsX0
        have htine : tiStar ≠ t1 := by
          intro h
          apply hsne
          show ([] : List ℤ) ++ [(tiStar : ℤ)] = [(t1 : ℤ)]
          rw [h]
          simp
        have hT1b : t1 ∈ availableTeams row1 (((tiStar : ℕ) :: usedIndices used_mask,
            ([] : List ℤ) ++ [(tiStar : ℤ)], (1 : ℚ) * valAt row0 tiStar) : BeamState).1 := by
          refine avail_mem_intro hlt1 ?_ hsome1 hnn1
          simp only [List.mem_cons]
          rintro (h | h)
          · exact htine h.symm
          · exact ht1u h
        have hge0 : (1 : ℚ) * valAt row0 t0 ≤ (1 : ℚ) * valAt row0 tiStar :=
          sorted_take_ge (beamExpand row0
            [(usedIndices used_mask, ([] : List ℤ), (1 : ℚ))]) BEAM_WIDTH _ hsL1 _ hc0d
        refine ⟨_, beamExpand_child hsL1 hT1b, ?_⟩
        show valAt row0 t0 * valAt row1 t1 ≤
          ((1 : ℚ) * valAt row0 tiStar) * valAt row1 t1
        calc valAt row0 t0 * valAt row1 t1
            = ((1 : ℚ) * valAt row0 t0) * valAt row1 t1 := by ring
          _ ≤ ((1 : ℚ) * valAt row0 tiStar) * valAt row1 t1 :=
            mul_le_mul_of_nonneg_right hge0 hnn1
    cases hsort : beamSort (beamExpand row1 ((beamSort (beamExpand row0
        [(usedIndices used_mask, ([] : List ℤ), (1 : ℚ))])).take BEAM_WIDTH)) with
    | nil =>
      exfalso
      apply hX1ne
      have hperm : List.Perm (beamSort (beamExpand row1 ((beamSort (beamExpand row0
          [(usedIndices used_mask, ([] : List ℤ), (1 : ℚ))])).take BEAM_WIDTH)))
          (beamExpand row1 ((beamSort (beamExpand row0
          [(usedIndices used_mask, ([] : List ℤ), (1 : ℚ))])).take BEAM_WIDTH)) :=
        insertionSortBy_perm (fun a b : BeamState => decide (b.2.2 ≤ a.2.2)) _
      rw [hsort] at hperm
      exact (hperm.nil_eq).symm
    | cons b bs =>
      have hres : (simulate_full_season_strategy [row0, row1] used_mask
          all_teams n_sims r).2 = b.2.2 := by
        simp only [simulate_full_season_strategy]
        rw [hbl, hsort]
        simp [BEAM_WIDTH]
      rw [hres]
      obtain ⟨c, hcmem, hcge⟩ := hkey
      have hle := beamSort_head_ge (beamExpand row1 ((beamSort (beamExpand row0
        [(usedIndices used_mask, ([] : List ℤ), (1 : ℚ))])).take BEAM_WIDTH)) b c hcmem
      rw [hsort] at hle
      simp only [List.headD_cons] at hle
      calc traceProd [row0, row1] [t0, t1] = valAt row0 t0 * valAt row1 t1 := by
            simp [traceProd]
        _ ≤ c.2.2 := hcge
        _ ≤ b.2.2 := hle
  · -- three or more: impossible
    simp at hw

end Survivor

namespace Survivor

/-- C2 amended, witness: a one-week two-team matrix where the greedy
trace picks column 0 (probability `1/2`) and the beam search returns at
least that survival. -/
theorem c2_amended_witness :
    isGreedyTrace [[some (1/2 : ℚ), some (1/4)]] [false, false] [0] = true ∧
    traceProd [[some (1/2 : ℚ), some (1/4)]] [0] ≤
      (simulate_full_season_strategy [[some (1/2 : ℚ), some (1/4)]] [false, false]
        ["A", "B"] 1 (defaultRng SEED)).2 := by
  have hg : isGreedyTrace [[some (1/2 : ℚ), some (1/4)]] [false, false] [0] = true := by
    norm_num [isGreedyTrace, contAvailable, valAt, List.range, List.range.loop,
      decide_eq_true, decide_eq_false]
  refine ⟨hg, c2_amended [[some (1/2 : ℚ), some (1/4)]] [false, false]
    ["A", "B"] 1 (defaultRng SEED) [0] (by decide) ?_ ?_ hg⟩
  · intro row hrow
    rw [List.mem_singleton] at hrow
    subst hrow
    intro c hc v hv
    rcases List.mem_cons.mp hc with rfl | hc2
    · injection hv with h
      rw [← h]
      norm_num
    · rcases List.mem_cons.mp hc2 with rfl | hc3
      · injection hv with h
        rw [← h]
        norm_num
      · exact absurd hc3 (List.not_mem_nil _)
  · intro row hrow
    rw [List.mem_singleton] at hrow
    subst hrow
    decide

end Survivor
